import Mathlib

/-!
Verification of the OAuth security utilities (CSRF protection, one-time
OAuth state store, session binding, HMAC-signed client-approval cookies,
URL sanitization) for Cloudflare Workers.

The TypeScript source is shallowly embedded: each exported function is
translated into an executable Lean definition.  Strings are modelled as
Lean `String` (sequences of Unicode scalar values; the inputs relevant to
the claims are ASCII, where JS UTF-16 code units and scalar values agree).
Platform crypto primitives (`crypto.subtle.digest`/`sign`/`verify`) are
passed in as explicit function parameters, since they are not code of the
repository; everything around them (hex encoding, cookie parsing, base64,
JSON serialization of string arrays) is implemented concretely, following
the ECMAScript / WHATWG algorithms the code calls into.  A thrown
exception is modelled as `Except.error`.
-/

namespace OAuthSec

/-- The set of code points removed by JS `String.prototype.trim`
(ECMAScript WhiteSpace and LineTerminator). -/
def jsWhitespaceCodes : List Nat :=
  [0x9, 0xA, 0xB, 0xC, 0xD, 0x20, 0xA0, 0x1680, 0x2000, 0x2001, 0x2002, 0x2003,
   0x2004, 0x2005, 0x2006, 0x2007, 0x2008, 0x2009, 0x200A, 0x2028, 0x2029,
   0x202F, 0x205F, 0x3000, 0xFEFF]

def isJsWhitespace (c : Char) : Bool := jsWhitespaceCodes.contains c.toNat

/-- JS `String.prototype.trim` on a character list. -/
def jsTrimList (l : List Char) : List Char :=
  ((l.dropWhile isJsWhitespace).reverse.dropWhile isJsWhitespace).reverse

/-- JS `String.prototype.trim`. -/
def jsTrim (s : String) : String := ⟨jsTrimList s.data⟩

/-- JS `String.prototype.split` with a single-character separator
(splits on every occurrence, keeps empty pieces, `"".split(c) = [""]`). -/
def splitOnChar (sep : Char) : List Char → List (List Char)
  | [] => [[]]
  | c :: rest =>
    if c = sep then [] :: splitOnChar sep rest
    else
      match splitOnChar sep rest with
      | [] => [[c]]
      | h :: t => (c :: h) :: t

/-- JS `String.prototype.startsWith` on character lists. -/
def listStarts : List Char → List Char → Bool
  | [], _ => true
  | _ :: _, [] => false
  | p :: ps, c :: cs => p = c && listStarts ps cs

/-- The control-character test of `sanitizeUrl`:
`(code >= 0x00 && code <= 0x1f) || (code >= 0x7f && code <= 0x9f)`. -/
def hasControlChar (s : String) : Bool :=
  s.data.any (fun c => decide (c.toNat ≤ 0x1f ∨ (0x7f ≤ c.toNat ∧ c.toNat ≤ 0x9f)))

instance {ε α : Type} [DecidableEq ε] [DecidableEq α] : DecidableEq (Except ε α) := fun x y =>
  match x, y with
  | .ok a, .ok b =>
    if h : a = b then .isTrue (by rw [h])
    else .isFalse (fun he => h (Except.ok.inj he))
  | .ok _, .error _ => .isFalse (fun he => Except.noConfusion he)
  | .error _, .ok _ => .isFalse (fun he => Except.noConfusion he)
  | .error a, .error b =>
    if h : a = b then .isTrue (by rw [h])
    else .isFalse (fun he => h (Except.error.inj he))

/-- `OAuthError(code, description, statusCode = 400)` from the source. -/
structure OAuthError where
  code : String
  description : String
  statusCode : Nat
deriving DecidableEq, Repr

/-- Result of `validateCSRFToken`. -/
structure ValidateCSRFResult where
  clearCookie : String
deriving DecidableEq, Repr

/-- Result of `bindStateToSession`. -/
structure BindStateResult where
  setCookie : String
deriving DecidableEq, Repr

/-- Result of `validateOAuthState`; `α` stands for the caller-supplied
`AuthRequest` type of `@cloudflare/workers-oauth-provider`. -/
structure ValidateStateResult (α : Type) where
  oauthReqInfo : α
  clearCookie : String
deriving DecidableEq, Repr

/-- The result of the `new URL(...)` platform constructor, restricted to
the one field the source reads (`protocol`, which includes the trailing
colon as in the URL API). -/
structure URLParsed where
  protocol : String
deriving DecidableEq, Repr

/-- JS `String.prototype.slice(0, -1)`: drop the last character. -/
def jsDropLast (s : String) : String := ⟨s.data.dropLast⟩

/-- JS `String.prototype.toLowerCase` (ASCII range; the scheme strings
compared against are ASCII). -/
def jsToLower (s : String) : String := ⟨s.data.map Char.toLower⟩

/-- `sanitizeUrl` from the source.  `parseURL` models the platform `URL`
constructor (`none` = the constructor throws). -/
def sanitizeUrl (parseURL : String → Option URLParsed) (url : String) : String :=
  let normalized := jsTrim url
  if normalized.length = 0 then ""
  else if hasControlChar normalized then ""
  else
    match parseURL normalized with
    | none => ""
    | some parsedUrl =>
      let scheme := jsToLower (jsDropLast parsedUrl.protocol)
      if (["https", "http"] : List String).contains scheme then normalized else ""

/-- A `FormDataEntryValue`: a string or a `File` object. -/
inductive FormDataEntryValue where
  | str : String → FormDataEntryValue
  | file : FormDataEntryValue
deriving DecidableEq, Repr

/-- `FormData.get`: first entry with the given name, or `null`. -/
def formDataGet (formData : List (String × FormDataEntryValue)) (key : String) :
    Option FormDataEntryValue :=
  (formData.find? (fun p => p.1 == key)).map (·.2)

/-- The cookie-extraction idiom repeated in the source:
split the `Cookie` header on `';'`, trim each part, find the first part
starting with `name=`, and take the rest of that part (`substring`);
`none` when no part matches. -/
def getCookieValue (name : String) (cookieHeader : String) : Option String :=
  let cookies := (splitOnChar ';' cookieHeader.data).map jsTrimList
  match cookies.find? (fun c => listStarts (name.data ++ ['=']) c) with
  | some c => some ⟨c.drop (name.data.length + 1)⟩
  | none => none

def csrfCookieName : String := "__Host-CSRF_TOKEN"

/-- `validateCSRFToken(formData, request)`.  `cookieHeaderOpt` is
`request.headers.get('Cookie')` (`none` = header absent).  JS falsiness:
a missing, non-string, or empty form value fails the
`!tokenFromForm || typeof tokenFromForm !== 'string'` test, and an absent
or empty extracted cookie value fails `!tokenFromCookie`. -/
def validateCSRFToken (formData : List (String × FormDataEntryValue))
    (cookieHeaderOpt : Option String) : Except OAuthError ValidateCSRFResult :=
  match formDataGet formData "csrf_token" with
  | none => .error ⟨"invalid_request", "Missing CSRF token in form data", 400⟩
  | some .file => .error ⟨"invalid_request", "Missing CSRF token in form data", 400⟩
  | some (.str tokenFromForm) =>
    if tokenFromForm = "" then
      .error ⟨"invalid_request", "Missing CSRF token in form data", 400⟩
    else
      let cookieHeader := cookieHeaderOpt.getD ""
      match getCookieValue csrfCookieName cookieHeader with
      | none => .error ⟨"invalid_request", "Missing CSRF token cookie", 400⟩
      | some tokenFromCookie =>
        if tokenFromCookie = "" then
          .error ⟨"invalid_request", "Missing CSRF token cookie", 400⟩
        else if tokenFromForm ≠ tokenFromCookie then
          .error ⟨"invalid_request", "CSRF token mismatch", 400⟩
        else
          .ok ⟨csrfCookieName ++ "=; HttpOnly; Secure; Path=/; SameSite=Lax; Max-Age=0"⟩

/-! ### Hex encoding (`b.toString(16).padStart(2, '0')` and friends) -/

def hexTable : List Char := "0123456789abcdef".data

def hexDigitChar (n : Nat) : Char := hexTable.getD n '0'

/-- Digits of `n` in base 16, most significant first; `fuel`-structured so
the kernel can evaluate it (`fuel ≥ n` suffices since `n/16 < n`). -/
def natToHexCore (fuel n : Nat) : List Char :=
  match fuel, n with
  | 0, _ => []
  | _, 0 => []
  | fuel + 1, n + 1 => natToHexCore fuel ((n + 1) / 16) ++ [hexDigitChar ((n + 1) % 16)]

/-- JS `Number.prototype.toString(16)` for a non-negative integer. -/
def natToHex (n : Nat) : String := if n = 0 then "0" else ⟨natToHexCore n n⟩

/-- `b.toString(16).padStart(2, '0')`. -/
def byteToHexPadded (b : Nat) : String :=
  let s := natToHex b
  if s.length = 1 then "0" ++ s else s

/-- `bytes.map((b) => b.toString(16).padStart(2, '0')).join('')`. -/
def bytesToHex (bs : List Nat) : String :=
  ⟨(bs.map (fun b => (byteToHexPadded b).data)).flatten⟩

/-! ### OAuth state management (`createOAuthState` / `bindStateToSession` /
`validateOAuthState`).  The KV namespace is an association list; `put`
shadows, `get` finds the newest entry, `delete` removes all entries for
the key.  TTL expiry is passive in the store and not modelled (no claim
depends on the passage of time).  `crypto.randomUUID()` is nondeterministic,
so the generated token is an explicit argument; `crypto.subtle.digest
('SHA-256', ...)` is the parameter `sha256 : String → List Nat` (digest
bytes of the UTF-8 encoding of the argument). -/

abbrev KV := List (String × String)

def kvGet (kv : KV) (k : String) : Option String :=
  (kv.find? (fun p => p.1 == k)).map (·.2)

def kvPut (kv : KV) (k v : String) : KV := (k, v) :: kv

def kvDelete (kv : KV) (k : String) : KV := kv.filter (fun p => !(p.1 == k))

def stateKey (stateToken : String) : String := "oauth:state:" ++ stateToken

/-- `createOAuthState(oauthReqInfo, kv, stateTTL = 600)`: stores
`JSON.stringify(oauthReqInfo)` under `oauth:state:<token>` and returns the
token.  `stringifyAuth` models `JSON.stringify` on the caller's
`AuthRequest` type. -/
def createOAuthState {α : Type} (stringifyAuth : α → String)
    (stateToken : String) (oauthReqInfo : α) (kv : KV) : String × KV :=
  (stateToken, kvPut kv (stateKey stateToken) (stringifyAuth oauthReqInfo))

def consentedStateCookieName : String := "__Host-CONSENTED_STATE"

/-- `bindStateToSession(stateToken)`: hex of the SHA-256 digest of the
token, in a host-locked 600-second cookie. -/
def bindStateToSession (sha256 : String → List Nat) (stateToken : String) :
    BindStateResult :=
  ⟨consentedStateCookieName ++ "=" ++ bytesToHex (sha256 stateToken) ++
    "; HttpOnly; Secure; Path=/; SameSite=Lax; Max-Age=600"⟩

/-- `validateOAuthState(request, kv)`.  `stateFromQuery` is
`url.searchParams.get('state')`, `cookieHeaderOpt` is
`request.headers.get('Cookie')`, and `parseAuth` models `JSON.parse`
on the stored payload (`none` = `JSON.parse` throws).  Returns the thrown
`OAuthError` or the success result, together with the store as left by the
call (unchanged on every failure path; the record deleted on success). -/
def validateOAuthState {α : Type} (sha256 : String → List Nat)
    (parseAuth : String → Option α) (stateFromQuery : Option String)
    (cookieHeaderOpt : Option String) (kv : KV) :
    Except OAuthError (ValidateStateResult α) × KV :=
  match stateFromQuery with
  | none => (.error ⟨"invalid_request", "Missing state parameter", 400⟩, kv)
  | some st =>
    if st = "" then (.error ⟨"invalid_request", "Missing state parameter", 400⟩, kv)
    else
      match kvGet kv (stateKey st) with
      | none => (.error ⟨"invalid_request", "Invalid or expired state", 400⟩, kv)
      | some storedDataJson =>
        if storedDataJson = "" then
          (.error ⟨"invalid_request", "Invalid or expired state", 400⟩, kv)
        else
          match getCookieValue consentedStateCookieName (cookieHeaderOpt.getD "") with
          | none =>
            (.error ⟨"invalid_request",
              "Missing session binding cookie - authorization flow must be restarted", 400⟩, kv)
          | some consentedStateHash =>
            if consentedStateHash = "" then
              (.error ⟨"invalid_request",
                "Missing session binding cookie - authorization flow must be restarted", 400⟩, kv)
            else if bytesToHex (sha256 st) ≠ consentedStateHash then
              (.error ⟨"invalid_request",
                "State token does not match session - possible CSRF attack detected", 400⟩, kv)
            else
              match parseAuth storedDataJson with
              | none => (.error ⟨"server_error", "Invalid state data", 500⟩, kv)
              | some oauthReqInfo =>
                (.ok ⟨oauthReqInfo,
                  consentedStateCookieName ++ "=; HttpOnly; Secure; Path=/; SameSite=Lax; Max-Age=0"⟩,
                 kvDelete kv (stateKey st))

/-! ### `btoa` / `atob` (WHATWG base64 on Latin-1 strings) -/

def base64Alphabet : List Char :=
  "ABCDEFGHIJKLMNOPQRSTUVWXYZabcdefghijklmnopqrstuvwxyz0123456789+/".data

def sextetChar (n : Nat) : Char := base64Alphabet.getD n 'A'

/-- Base64-encode a byte list, three bytes at a time, with `=` padding. -/
def btoaChunks : List Nat → List Char
  | [] => []
  | [b0] => [sextetChar (b0 / 4), sextetChar (b0 % 4 * 16), '=', '=']
  | [b0, b1] =>
    [sextetChar (b0 / 4), sextetChar (b0 % 4 * 16 + b1 / 16), sextetChar (b1 % 16 * 4), '=']
  | b0 :: b1 :: b2 :: rest =>
    sextetChar (b0 / 4) :: sextetChar (b0 % 4 * 16 + b1 / 16) ::
      sextetChar (b1 % 16 * 4 + b2 / 64) :: sextetChar (b2 % 64) :: btoaChunks rest

/-- JS `btoa`: throws (`none`) on any code unit above U+00FF. -/
def jsBtoa (s : String) : Option String :=
  if s.data.all (fun c => decide (c.toNat ≤ 255)) then
    some ⟨btoaChunks (s.data.map Char.toNat)⟩
  else none

/-- ASCII whitespace, removed by forgiving-base64 decode. -/
def isAsciiWs (c : Char) : Bool :=
  c.toNat = 0x9 || c.toNat = 0xA || c.toNat = 0xC || c.toNat = 0xD || c.toNat = 0x20

/-- Forgiving-base64: when the length is a multiple of four, remove one or
two trailing `=`. -/
def stripPad (cs : List Char) : List Char :=
  if cs.length % 4 = 0 then
    if cs.reverse.take 2 = ['=', '='] then (cs.reverse.drop 2).reverse
    else if cs.reverse.take 1 = ['='] then (cs.reverse.drop 1).reverse
    else cs
  else cs

/-- Map each character to its base64 alphabet index; `none` when any
character is outside the alphabet. -/
def sextetsOf : List Char → Option (List Nat)
  | [] => some []
  | c :: rest =>
    match base64Alphabet.findIdx? (fun x => x == c), sextetsOf rest with
    | some i, some is => some (i :: is)
    | _, _ => none

/-- Regroup sextets into bytes, discarding leftover bits (a trailing
single sextet cannot occur: a residue of 1 is rejected beforehand). -/
def decodeSextets : List Nat → List Nat
  | [] => []
  | [_] => []
  | [s0, s1] => [s0 * 4 + s1 / 16]
  | [s0, s1, s2] => [s0 * 4 + s1 / 16, s1 % 16 * 16 + s2 / 4]
  | s0 :: s1 :: s2 :: s3 :: rest =>
    (s0 * 4 + s1 / 16) :: (s1 % 16 * 16 + s2 / 4) :: (s2 % 4 * 64 + s3) :: decodeSextets rest

/-- JS `atob` (WHATWG forgiving-base64 decode); `none` = it throws
`InvalidCharacterError`. -/
def jsAtob (s : String) : Option String :=
  if (stripPad (s.data.filter (fun c => !isAsciiWs c))).length % 4 = 1 then none
  else
    match sextetsOf (stripPad (s.data.filter (fun c => !isAsciiWs c))) with
    | none => none
    | some sx => some ⟨(decodeSextets sx).map Char.ofNat⟩

/-! ### `parseInt(chunk, 16)` and `signatureHex.match(/.{1,2}/g)` -/

/-- ECMAScript LineTerminator (not matched by the regex `.`). -/
def lineTerm (c : Char) : Bool :=
  c.toNat = 0xA || c.toNat = 0xD || c.toNat = 0x2028 || c.toNat = 0x2029

/-- `s.match(/.{1,2}/g)`: greedy one-or-two-character chunks of
non-LineTerminator characters; the empty match list models the `null`
return. -/
def regexChunks : List Char → List (List Char)
  | [] => []
  | [a] => if lineTerm a then [] else [[a]]
  | a :: b :: rest =>
    if lineTerm a then regexChunks (b :: rest)
    else if lineTerm b then [a] :: regexChunks rest
    else [a, b] :: regexChunks rest

def hexDigitVal (c : Char) : Option Nat :=
  if '0' ≤ c ∧ c ≤ '9' then some (c.toNat - '0'.toNat)
  else if 'a' ≤ c ∧ c ≤ 'f' then some (c.toNat - 'a'.toNat + 10)
  else if 'A' ≤ c ∧ c ≤ 'F' then some (c.toNat - 'A'.toNat + 10)
  else none

/-- Greedy hex-digit scan, stopping at the first non-digit; `none` when no
digit was consumed (the `NaN` case). -/
def parseHexDigits (acc : Option Nat) : List Char → Option Nat
  | [] => acc
  | c :: rest =>
    match hexDigitVal c with
    | some d => parseHexDigits (some (acc.getD 0 * 16 + d)) rest
    | none => acc

/-- JS `Number.parseInt(s, 16)`: optional whitespace, sign, `0x` prefix,
then greedy hex digits; `none` = `NaN`. -/
def jsParseIntHex (cs : List Char) : Option Int :=
  let cs := cs.dropWhile isJsWhitespace
  let signAndRest : Bool × List Char :=
    match cs with
    | '-' :: rest => (true, rest)
    | '+' :: rest => (false, rest)
    | _ => (false, cs)
  let body : List Char :=
    match signAndRest.2 with
    | '0' :: 'x' :: rest => rest
    | '0' :: 'X' :: rest => rest
    | _ => signAndRest.2
  match parseHexDigits none body with
  | none => none
  | some v => some (if signAndRest.1 then -(v : Int) else (v : Int))

/-- `new Uint8Array([v])` element conversion: `NaN` becomes 0, otherwise
the integer modulo 256. -/
def jsToUint8 (v : Option Int) : Nat :=
  match v with
  | none => 0
  | some v => (v % 256).toNat

/-! ### JSON serialization of string arrays (`JSON.stringify` on
`string[]`) -/

def jsonEscapeChar (c : Char) : List Char :=
  if c = '"' then ['\\', '"']
  else if c = '\\' then ['\\', '\\']
  else if c.toNat = 8 then ['\\', 'b']
  else if c.toNat = 9 then ['\\', 't']
  else if c.toNat = 10 then ['\\', 'n']
  else if c.toNat = 12 then ['\\', 'f']
  else if c.toNat = 13 then ['\\', 'r']
  else if c.toNat < 32 then
    '\\' :: 'u' :: '0' :: '0' :: [hexDigitChar (c.toNat / 16), hexDigitChar (c.toNat % 16)]
  else [c]

def jsonQuoteStr (s : String) : String :=
  ⟨'"' :: (s.data.map jsonEscapeChar).flatten ++ ['"']⟩

def jsonStringifyStrList (l : List String) : String :=
  "[" ++ String.intercalate "," (l.map jsonQuoteStr) ++ "]"

/-- A JSON value as seen by the `Array.isArray` / `typeof item ===
'string'` checks of `getApprovedClientsFromCookie`: a string, an array,
or anything else. -/
inductive JsVal where
  | str : String → JsVal
  | arr : List JsVal → JsVal
  | other : JsVal

def JsVal.isStr : JsVal → Bool
  | .str _ => true
  | _ => false

def JsVal.asStr : JsVal → Option String
  | .str s => some s
  | _ => none

/-! ### Client approval caching.  `hmacBytes secret data` models
`crypto.subtle.sign('HMAC', importKey(secret), utf8(data))` (the digest
bytes); `jparse` models `JSON.parse` (`none` = it throws). -/

/-- `signData(data, secret)`: `importKey` throws on an empty secret;
otherwise the hex of the HMAC-SHA256 signature. -/
def signData (hmacBytes : String → String → List Nat) (data secret : String) :
    Except String String :=
  if secret = "" then .error "cookieSecret is required for signing cookies"
  else .ok (bytesToHex (hmacBytes secret data))

/-- `verifySignature(signatureHex, data, secret)`: `importKey` (outside
the `try`) throws on an empty secret; inside the `try`, an empty
signature string makes `match` return `null` and the non-null assertion
throw (caught, `false`); otherwise each one-or-two-character chunk is
`parseInt(chunk, 16)` converted to a byte, and `crypto.subtle.verify`
compares those bytes with the HMAC of `data`. -/
def verifySignature (hmacBytes : String → String → List Nat)
    (signatureHex data secret : String) : Except String Bool :=
  if secret = "" then .error "cookieSecret is required for signing cookies"
  else
    match regexChunks signatureHex.data with
    | [] => .ok false
    | chunks =>
      .ok (decide (chunks.map (fun ch => jsToUint8 (jsParseIntHex ch)) = hmacBytes secret data))

def approvedClientsCookieName : String := "__Host-APPROVED_CLIENTS"

/-- `getApprovedClientsFromCookie(request, cookieSecret)`: reads the
`__Host-APPROVED_CLIENTS` cookie (`signatureHex.base64Payload`), decodes
the payload with `atob` (a throw is NOT caught), verifies the signature
over the decoded JSON text, and parses the payload, returning `null`
(`none`) on a missing cookie, wrong part count, failed verification, a
`JSON.parse` throw, or a non-string-array value. -/
def getApprovedClientsFromCookie (hmacBytes : String → String → List Nat)
    (jparse : String → Option JsVal) (cookieHeaderOpt : Option String)
    (cookieSecret : String) : Except String (Option (List String)) :=
  match cookieHeaderOpt with
  | none => .ok none
  | some cookieHeader =>
    if cookieHeader = "" then .ok none
    else
      match getCookieValue approvedClientsCookieName cookieHeader with
      | none => .ok none
      | some cookieValue =>
        if (splitOnChar '.' cookieValue.data).length ≠ 2 then .ok none
        else
          match jsAtob ⟨(splitOnChar '.' cookieValue.data).getD 1 []⟩ with
          | none => .error "InvalidCharacterError"
          | some payload =>
            match verifySignature hmacBytes ⟨(splitOnChar '.' cookieValue.data).getD 0 []⟩
                payload cookieSecret with
            | .error e => .error e
            | .ok false => .ok none
            | .ok true =>
              match jparse payload with
              | none => .ok none
              | some v =>
                match v with
                | .arr items =>
                  if items.all JsVal.isStr then .ok (some (items.filterMap JsVal.asStr))
                  else .ok none
                | _ => .ok none

/-- `isClientApproved(request, clientId, cookieSecret)`:
`approvedClients?.includes(clientId) ?? false`. -/
def isClientApproved (hmacBytes : String → String → List Nat)
    (jparse : String → Option JsVal) (cookieHeaderOpt : Option String)
    (clientId cookieSecret : String) : Except String Bool :=
  match getApprovedClientsFromCookie hmacBytes jparse cookieHeaderOpt cookieSecret with
  | .error e => .error e
  | .ok approvedClients =>
    .ok (match approvedClients with
         | some l => l.contains clientId
         | none => false)

/-- `Array.from(new Set(l))`: de-duplication keeping the first occurrence,
in insertion order. -/
def dedupKeepFirst : List String → List String
  | [] => []
  | a :: rest => a :: (dedupKeepFirst rest).filter (fun x => !(x == a))

/-- `addApprovedClient(request, clientId, cookieSecret)`: the verified
existing approvals (`null` treated as `[]`) with `clientId` unioned in and
de-duplicated, re-serialized, HMAC-signed over the raw JSON text,
base64-encoded, and returned as a 30-day `Set-Cookie` directive. -/
def addApprovedClient (hmacBytes : String → String → List Nat)
    (jparse : String → Option JsVal) (cookieHeaderOpt : Option String)
    (clientId cookieSecret : String) : Except String String :=
  match getApprovedClientsFromCookie hmacBytes jparse cookieHeaderOpt cookieSecret with
  | .error e => .error e
  | .ok existingApprovedClients =>
    match signData hmacBytes
        (jsonStringifyStrList (dedupKeepFirst (existingApprovedClients.getD [] ++ [clientId])))
        cookieSecret with
    | .error e => .error e
    | .ok signature =>
      match jsBtoa (jsonStringifyStrList
          (dedupKeepFirst (existingApprovedClients.getD [] ++ [clientId]))) with
      | none => .error "InvalidCharacterError"
      | some b64 =>
        .ok (approvedClientsCookieName ++ "=" ++ signature ++ "." ++ b64 ++
          "; HttpOnly; Secure; Path=/; SameSite=Lax; Max-Age=2592000")

/-! ### Theorems: CSRF validation (claims C2, C10) -/

/-- C2 (amended): `validateCSRFToken` succeeds iff the `csrf_token` form
field and the extracted `__Host-CSRF_TOKEN` cookie value are byte-identical
non-empty strings; a missing, non-string, or empty form field raises the
form-side missing-token error; a present non-empty form token with a
missing or empty cookie raises the cookie-side missing-token error; two
present, non-empty, differing values raise the mismatch error. -/
theorem c2_csrf_exact_match_amended (formData : List (String × FormDataEntryValue))
    (hdr : Option String) :
    ((∃ r, validateCSRFToken formData hdr = .ok r) ↔
      (∃ s, s ≠ "" ∧ formDataGet formData "csrf_token" = some (.str s) ∧
        getCookieValue csrfCookieName (hdr.getD "") = some s)) ∧
    ((formDataGet formData "csrf_token" = none ∨
      formDataGet formData "csrf_token" = some .file ∨
      formDataGet formData "csrf_token" = some (.str "")) →
      validateCSRFToken formData hdr =
        .error ⟨"invalid_request", "Missing CSRF token in form data", 400⟩) ∧
    (∀ s, s ≠ "" → formDataGet formData "csrf_token" = some (.str s) →
      (getCookieValue csrfCookieName (hdr.getD "") = none ∨
       getCookieValue csrfCookieName (hdr.getD "") = some "") →
      validateCSRFToken formData hdr =
        .error ⟨"invalid_request", "Missing CSRF token cookie", 400⟩) ∧
    (∀ s c, s ≠ "" → c ≠ "" → s ≠ c →
      formDataGet formData "csrf_token" = some (.str s) →
      getCookieValue csrfCookieName (hdr.getD "") = some c →
      validateCSRFToken formData hdr =
        .error ⟨"invalid_request", "CSRF token mismatch", 400⟩) := by
  refine ⟨?_, ?_, ?_, ?_⟩
  · constructor
    · intro ⟨r, hr⟩
      unfold validateCSRFToken at hr
      rcases hf : formDataGet formData "csrf_token" with _ | v
      · rw [hf] at hr; exact absurd hr (by simp)
      · rcases v with s | _
        · rw [hf] at hr
          simp only at hr
          by_cases hs : s = ""
          · rw [if_pos hs] at hr; exact absurd hr (by simp)
          · rw [if_neg hs] at hr
            rcases hc : getCookieValue csrfCookieName (hdr.getD "") with _ | c
            · rw [hc] at hr; exact absurd hr (by simp)
            · rw [hc] at hr
              simp only at hr
              by_cases hce : c = ""
              · rw [if_pos hce] at hr; exact absurd hr (by simp)
              · rw [if_neg hce] at hr
                by_cases hsc : s ≠ c
                · rw [if_pos hsc] at hr; exact absurd hr (by simp)
                · rw [if_neg hsc] at hr
                  push_neg at hsc
                  exact ⟨s, hs, rfl, by rw [hsc]⟩
        · rw [hf] at hr; exact absurd hr (by simp)
    · intro ⟨s, hs, hf, hc⟩
      refine ⟨⟨csrfCookieName ++ "=; HttpOnly; Secure; Path=/; SameSite=Lax; Max-Age=0"⟩, ?_⟩
      unfold validateCSRFToken
      rw [hf]
      simp only [if_neg hs]
      rw [hc]
      simp only [if_neg hs]
      rw [if_neg (by simp)]
  · intro h
    unfold validateCSRFToken
    rcases h with h | h | h <;> (rw [h]; try simp)
  · intro s hs hf hc
    unfold validateCSRFToken
    rw [hf]
    simp only [if_neg hs]
    rcases hc with hc | hc <;> (rw [hc]; try simp)
  · intro s c hs hc hsc hf hcv
    unfold validateCSRFToken
    rw [hf]
    simp only [if_neg hs]
    rw [hcv]
    simp only [if_neg hc, if_pos hsc]

/-- C2 counterexample: with the `csrf_token` form field present as the
empty string and the `__Host-CSRF_TOKEN` cookie present with the empty
value, the two values are byte-identical strings, yet validation fails
with the missing-token error instead of succeeding — refuting the claimed
"succeeds iff byte-identical" equivalence. -/
theorem c2_csrf_empty_equal_counterexample :
    formDataGet [("csrf_token", FormDataEntryValue.str "")] "csrf_token" =
      some (.str "") ∧
    getCookieValue csrfCookieName "__Host-CSRF_TOKEN=" = some "" ∧
    ¬ (∃ r, validateCSRFToken [("csrf_token", FormDataEntryValue.str "")]
        (some "__Host-CSRF_TOKEN=") = .ok r) := by
  refine ⟨by decide, by decide, ?_⟩
  intro ⟨r, hr⟩
  have : validateCSRFToken [("csrf_token", FormDataEntryValue.str "")]
      (some "__Host-CSRF_TOKEN=") =
      .error ⟨"invalid_request", "Missing CSRF token in form data", 400⟩ := by decide
  rw [this] at hr
  exact absurd hr (by simp)

/-- C2 witness: a concrete matching token validates, and the amended
equivalence applies to it. -/
theorem c2_csrf_witness :
    ∃ r, validateCSRFToken [("csrf_token", FormDataEntryValue.str "tok-1")]
      (some "__Host-CSRF_TOKEN=tok-1") = .ok r :=
  (c2_csrf_exact_match_amended [("csrf_token", FormDataEntryValue.str "tok-1")]
      (some "__Host-CSRF_TOKEN=tok-1")).1.mpr
    ⟨"tok-1", by decide, by decide, by decide⟩

/-- C10: `validateCSRFToken` treats an empty string on either side as
absent: an empty form field raises the form-side missing-token error, a
present non-empty form token with an empty-valued cookie raises the
cookie-side missing-token error, and two empty strings never validate as
equal. -/
theorem c10_csrf_empty_treated_as_absent (formData : List (String × FormDataEntryValue))
    (hdr : Option String) :
    (formDataGet formData "csrf_token" = some (.str "") →
      validateCSRFToken formData hdr =
        .error ⟨"invalid_request", "Missing CSRF token in form data", 400⟩) ∧
    (∀ s, formDataGet formData "csrf_token" = some (.str s) → s ≠ "" →
      getCookieValue csrfCookieName (hdr.getD "") = some "" →
      validateCSRFToken formData hdr =
        .error ⟨"invalid_request", "Missing CSRF token cookie", 400⟩) ∧
    (formDataGet formData "csrf_token" = some (.str "") →
      ¬ ∃ r, validateCSRFToken formData hdr = .ok r) := by
  refine ⟨?_, ?_, ?_⟩
  · intro hf
    unfold validateCSRFToken
    rw [hf]
    simp
  · intro s hf hs hc
    unfold validateCSRFToken
    rw [hf]
    simp only [if_neg hs]
    rw [hc]
    simp
  · intro hf ⟨r, hr⟩
    unfold validateCSRFToken at hr
    rw [hf] at hr
    simp at hr

/-- C10 witness: the empty-form-field case at a concrete input. -/
theorem c10_csrf_witness :
    validateCSRFToken [("csrf_token", FormDataEntryValue.str "")]
      (some "__Host-CSRF_TOKEN=x") =
      .error ⟨"invalid_request", "Missing CSRF token in form data", 400⟩ :=
  (c10_csrf_empty_treated_as_absent [("csrf_token", FormDataEntryValue.str "")]
      (some "__Host-CSRF_TOKEN=x")).1 (by decide)

/-- The sextet values produced by base64-encoding a byte list, without the
padding characters. -/
def encSextets : List Nat → List Nat
  | [] => []
  | [b0] => [b0 / 4, b0 % 4 * 16]
  | [b0, b1] => [b0 / 4, b0 % 4 * 16 + b1 / 16, b1 % 16 * 4]
  | b0 :: b1 :: b2 :: rest =>
    b0 / 4 :: (b0 % 4 * 16 + b1 / 16) :: (b1 % 16 * 4 + b2 / 64) :: b2 % 64 :: encSextets rest

/-- The `=` padding appended by base64 encoding, by input length. -/
def padFor (r : Nat) : List Char :=
  if r % 3 = 1 then ['=', '='] else if r % 3 = 2 then ['='] else []

/-- Characters that can appear in a cookie value without being altered by
the `split(';')` / `trim()` parsing. -/
def cookieSafe (l : List Char) : Prop :=
  ∀ c ∈ l, isJsWhitespace c = false ∧ ¬c = ';'

instance (l : List Char) : Decidable (cookieSafe l) := by
  unfold cookieSafe; infer_instance

/-! ### Supporting lemmas: strings, cookies, KV, hex -/

theorem splitOnChar_of_not_mem (sep : Char) (l : List Char) (h : ∀ c ∈ l, ¬c = sep) :
    splitOnChar sep l = [l] := by
  induction l with
  | nil => rfl
  | cons a l ih =>
    have ha : ¬a = sep := h a (by simp)
    have hl : splitOnChar sep l = [l] := ih (fun c hc => h c (by simp [hc]))
    simp [splitOnChar, ha, hl]

theorem dropWhile_eq_self_of_all (p : Char → Bool) (l : List Char)
    (h : ∀ c ∈ l, p c = false) : l.dropWhile p = l := by
  cases l with
  | nil => rfl
  | cons a l => simp [List.dropWhile_cons, h a (by simp)]

theorem jsTrimList_eq_self (l : List Char) (h : ∀ c ∈ l, isJsWhitespace c = false) :
    jsTrimList l = l := by
  unfold jsTrimList
  rw [dropWhile_eq_self_of_all _ _ h,
    dropWhile_eq_self_of_all _ _ (fun c hc => h c (List.mem_reverse.mp hc)),
    List.reverse_reverse]

theorem listStarts_self_append (p r : List Char) : listStarts p (p ++ r) = true := by
  induction p with
  | nil => rfl
  | cons a p ih => simp [listStarts, ih]

/-- Parsing a header holding exactly one cookie `name=v` yields `v`. -/
theorem getCookieValue_exact (name v : String)
    (hname : cookieSafe name.data) (hv : cookieSafe v.data) :
    getCookieValue name (name ++ "=" ++ v) = some v := by
  have hdata : (name ++ "=" ++ v).data = (name.data ++ ['=']) ++ v.data := rfl
  have hall : cookieSafe (name ++ "=" ++ v).data := by
    intro c hc
    rw [hdata] at hc
    rcases List.mem_append.mp hc with hc | hc
    · rcases List.mem_append.mp hc with hc | hc
      · exact hname c hc
      · simp only [List.mem_singleton] at hc
        subst hc
        exact ⟨by decide, by decide⟩
    · exact hv c hc
  unfold getCookieValue
  rw [splitOnChar_of_not_mem ';' _ (fun c hc => (hall c hc).2)]
  simp only [List.map_cons, List.map_nil]
  rw [jsTrimList_eq_self _ (fun c hc => (hall c hc).1)]
  have hstart : listStarts (name.data ++ ['=']) (name ++ "=" ++ v).data = true := by
    rw [hdata]; exact listStarts_self_append _ _
  simp only [List.find?_cons, hstart]
  have hdrop : (name ++ "=" ++ v).data.drop (name.data.length + 1) = v.data := by
    rw [hdata, show name.data.length + 1 = (name.data ++ ['=']).length from by simp,
      List.drop_left]
  rw [hdrop]

theorem kvGet_put (kv : KV) (k v : String) : kvGet (kvPut kv k v) k = some v := by
  simp [kvGet, kvPut, List.find?_cons]

theorem kvGet_delete (kv : KV) (k : String) : kvGet (kvDelete kv k) k = none := by
  induction kv with
  | nil => rfl
  | cons a kv ih =>
    rcases h : (a.1 == k) with _ | _
    · simpa [kvDelete, kvGet, List.filter_cons, h, List.find?_cons] using ih
    · simpa [kvDelete, kvGet, List.filter_cons, h, List.find?_cons] using ih

theorem hexDigitChar_mem (n : Nat) : hexDigitChar n ∈ hexTable := by
  have h : hexDigitChar n = (hexTable.get? n).getD '0' := rfl
  rw [h]
  rcases hg : hexTable.get? n with _ | c
  · exact (by decide : '0' ∈ hexTable)
  · simpa using List.get?_mem hg

theorem natToHexCore_mem (fuel : Nat) :
    ∀ n, ∀ c ∈ natToHexCore fuel n, c ∈ hexTable := by
  induction fuel with
  | zero => intro n c hc; simp [natToHexCore] at hc
  | succ fuel ih =>
    intro n c hc
    cases n with
    | zero => simp [natToHexCore] at hc
    | succ n =>
      simp only [natToHexCore] at hc
      rcases List.mem_append.mp hc with hc | hc
      · exact ih _ c hc
      · simp only [List.mem_singleton] at hc
        subst hc
        exact hexDigitChar_mem _

theorem natToHex_mem (n : Nat) : ∀ c ∈ (natToHex n).data, c ∈ hexTable := by
  intro c hc
  unfold natToHex at hc
  by_cases h : n = 0
  · rw [if_pos h] at hc
    rw [show c = '0' from by simpa using hc]
    decide
  · rw [if_neg h] at hc
    exact natToHexCore_mem n n c hc

theorem byteToHexPadded_mem (b : Nat) : ∀ c ∈ (byteToHexPadded b).data, c ∈ hexTable := by
  intro c hc
  unfold byteToHexPadded at hc
  by_cases h : (natToHex b).length = 1
  · simp only [if_pos h] at hc
    have : ("0" ++ natToHex b).data = '0' :: (natToHex b).data := rfl
    rw [this] at hc
    rcases List.mem_cons.mp hc with hc | hc
    · rw [hc]; decide
    · exact natToHex_mem b c hc
  · rw [if_neg h] at hc
    exact natToHex_mem b c hc

theorem bytesToHex_mem (bs : List Nat) : ∀ c ∈ (bytesToHex bs).data, c ∈ hexTable := by
  intro c hc
  simp only [bytesToHex, List.mem_flatten] at hc
  obtain ⟨l, hl, hcl⟩ := hc
  simp only [List.mem_map] at hl
  obtain ⟨b, -, rfl⟩ := hl
  exact byteToHexPadded_mem b c hcl

theorem hexTable_props :
    ∀ c ∈ hexTable, isJsWhitespace c = false ∧ ¬c = ';' ∧ ¬c = '.' ∧ lineTerm c = false := by
  decide

theorem bytesToHex_cookieSafe (bs : List Nat) : cookieSafe (bytesToHex bs).data :=
  fun c hc => ⟨(hexTable_props c (bytesToHex_mem bs c hc)).1,
    (hexTable_props c (bytesToHex_mem bs c hc)).2.1⟩

theorem natToHex_ne_nil (n : Nat) : (natToHex n).data ≠ [] := by
  unfold natToHex
  by_cases h : n = 0
  · rw [if_pos h]; decide
  · rw [if_neg h]
    obtain ⟨m, rfl⟩ : ∃ m, n = m + 1 := ⟨n - 1, by omega⟩
    simp [natToHexCore]

theorem byteToHexPadded_ne_nil (b : Nat) : (byteToHexPadded b).data ≠ [] := by
  unfold byteToHexPadded
  by_cases h : (natToHex b).length = 1
  · simp only [if_pos h]
    exact (by simp : ('0' :: (natToHex b).data) ≠ [])
  · rw [if_neg h]
    exact natToHex_ne_nil b

theorem bytesToHex_ne_empty (bs : List Nat) (h : bs ≠ []) : bytesToHex bs ≠ "" := by
  cases bs with
  | nil => exact absurd rfl h
  | cons b bs =>
    intro hcon
    have : (bytesToHex (b :: bs)).data = [] := by rw [hcon]
    rw [show (bytesToHex (b :: bs)).data =
        (byteToHexPadded b).data ++ (bs.map (fun x => (byteToHexPadded x).data)).flatten
      from rfl] at this
    exact byteToHexPadded_ne_nil b (List.append_eq_nil.mp this).1

/-! ### Theorems: URL sanitization (claim C8) -/

/-- C8: `sanitizeUrl` returns the empty string whenever the trimmed input
contains a control character (U+0000–U+001F or U+007F–U+009F), fails to
parse as a URL, or parses with a scheme other than `http`/`https`;
otherwise (no control character, parses, allowed scheme) it returns the
trimmed input unchanged. -/
theorem c8_sanitizeUrl_spec (parseURL : String → Option URLParsed) (url : String) :
    (hasControlChar (jsTrim url) = true → sanitizeUrl parseURL url = "") ∧
    (parseURL (jsTrim url) = none → sanitizeUrl parseURL url = "") ∧
    (∀ u, parseURL (jsTrim url) = some u →
      jsToLower (jsDropLast u.protocol) ∉ (["https", "http"] : List String) →
      sanitizeUrl parseURL url = "") ∧
    (∀ u, hasControlChar (jsTrim url) = false → parseURL (jsTrim url) = some u →
      jsToLower (jsDropLast u.protocol) ∈ (["https", "http"] : List String) →
      sanitizeUrl parseURL url = jsTrim url) := by
  refine ⟨?_, ?_, ?_, ?_⟩
  · intro h
    by_cases h0 : (jsTrim url).length = 0
    · simp [sanitizeUrl, h0]
    · simp [sanitizeUrl, h0, h]
  · intro h
    by_cases h0 : (jsTrim url).length = 0
    · simp [sanitizeUrl, h0]
    · by_cases hc : hasControlChar (jsTrim url) = true
      · simp [sanitizeUrl, h0, hc]
      · simp [sanitizeUrl, h0, hc, h]
  · intro u hu hm
    by_cases h0 : (jsTrim url).length = 0
    · simp [sanitizeUrl, h0]
    · by_cases hc : hasControlChar (jsTrim url) = true
      · simp [sanitizeUrl, h0, hc]
      · simp only [sanitizeUrl]
        rw [if_neg h0, if_neg hc, hu]
        show (if (["https", "http"] : List String).contains
            (jsToLower (jsDropLast u.protocol)) = true then jsTrim url else "") = ""
        rw [if_neg (fun hcontra => hm (List.elem_iff.mp hcontra))]
  · intro u hc hu hm
    by_cases h0 : (jsTrim url).length = 0
    · have : jsTrim url = "" := by
        cases he : jsTrim url with
        | mk data => cases data with
          | nil => rfl
          | cons a l => rw [he] at h0; exact absurd h0 (by simp [String.length])
      simp [sanitizeUrl, h0, this]
    · simp only [sanitizeUrl]
      rw [if_neg h0, if_neg (by rw [hc]; exact Bool.false_ne_true), hu]
      show (if (["https", "http"] : List String).contains
          (jsToLower (jsDropLast u.protocol)) = true then jsTrim url else "") = jsTrim url
      rw [if_pos (List.elem_iff.mpr hm)]

/-- C8 witness: a concrete URL with surrounding whitespace and an `http`
scheme is returned trimmed, via the theorem's second conjunct. -/
theorem c8_sanitizeUrl_witness :
    sanitizeUrl (fun s => if s = "http://example.com/a" then some ⟨"http:"⟩ else none)
      "  http://example.com/a  " = jsTrim "  http://example.com/a  " :=
  (c8_sanitizeUrl_spec
      (fun s => if s = "http://example.com/a" then some ⟨"http:"⟩ else none)
      "  http://example.com/a  ").2.2.2 ⟨"http:"⟩ (by decide) (by decide) (by decide)

example : jsToLower (jsDropLast "hTtPs:") = "https" := by decide

/-! ### Supporting lemmas: shape of `validateOAuthState` -/

theorem validateOAuthState_absent {α : Type} (sha256 : String → List Nat)
    (parseAuth : String → Option α) (t : String) (hdr : Option String) (kv : KV)
    (ht : t ≠ "") (hkv : kvGet kv (stateKey t) = none) :
    validateOAuthState sha256 parseAuth (some t) hdr kv =
      (.error ⟨"invalid_request", "Invalid or expired state", 400⟩, kv) := by
  simp only [validateOAuthState, if_neg ht, hkv]

theorem validateOAuthState_empty_payload {α : Type} (sha256 : String → List Nat)
    (parseAuth : String → Option α) (t : String) (hdr : Option String) (kv : KV)
    (ht : t ≠ "") (hkv : kvGet kv (stateKey t) = some "") :
    validateOAuthState sha256 parseAuth (some t) hdr kv =
      (.error ⟨"invalid_request", "Invalid or expired state", 400⟩, kv) := by
  simp only [validateOAuthState, if_neg ht, hkv]
  rw [if_pos trivial]

/-- Behaviour of `validateOAuthState` when the state parameter is non-empty
and a non-empty record is in the store: the outcome is decided by the
session-binding cookie and the parse of the stored payload. -/
theorem validateOAuthState_present {α : Type} (sha256 : String → List Nat)
    (parseAuth : String → Option α) (t : String) (hdr : Option String) (kv : KV)
    (payload : String) (ht : t ≠ "") (hkv : kvGet kv (stateKey t) = some payload)
    (hp : payload ≠ "") :
    validateOAuthState sha256 parseAuth (some t) hdr kv =
      match getCookieValue consentedStateCookieName (hdr.getD "") with
      | none =>
        (.error ⟨"invalid_request",
          "Missing session binding cookie - authorization flow must be restarted", 400⟩, kv)
      | some h =>
        if h = "" then
          (.error ⟨"invalid_request",
            "Missing session binding cookie - authorization flow must be restarted", 400⟩, kv)
        else if bytesToHex (sha256 t) ≠ h then
          (.error ⟨"invalid_request",
            "State token does not match session - possible CSRF attack detected", 400⟩, kv)
        else
          match parseAuth payload with
          | none => (.error ⟨"server_error", "Invalid state data", 500⟩, kv)
          | some r =>
            (.ok ⟨r, consentedStateCookieName ++
              "=; HttpOnly; Secure; Path=/; SameSite=Lax; Max-Age=0"⟩,
             kvDelete kv (stateKey t)) := by
  simp only [validateOAuthState, if_neg ht, hkv, if_neg hp]

/-- A successful `validateOAuthState` call leaves the store with the
record for the validated token deleted. -/
theorem validateOAuthState_ok_kv {α : Type} (sha256 : String → List Nat)
    (parseAuth : String → Option α) (t : String) (hdr : Option String) (kv : KV)
    (res : ValidateStateResult α) (kv2 : KV)
    (h : validateOAuthState sha256 parseAuth (some t) hdr kv = (.ok res, kv2)) :
    t ≠ "" ∧ kv2 = kvDelete kv (stateKey t) := by
  by_cases ht : t = ""
  · rw [show validateOAuthState sha256 parseAuth (some t) hdr kv =
        (.error ⟨"invalid_request", "Missing state parameter", 400⟩, kv) from by
      rw [ht]; rfl] at h
    exact absurd h (by simp)
  · refine ⟨ht, ?_⟩
    rcases hkv : kvGet kv (stateKey t) with _ | payload
    · rw [validateOAuthState_absent sha256 parseAuth t hdr kv ht hkv] at h
      exact absurd h (by simp)
    · by_cases hp : payload = ""
      · rw [hp] at hkv
        rw [validateOAuthState_empty_payload sha256 parseAuth t hdr kv ht hkv] at h
        exact absurd h (by simp)
      · rw [validateOAuthState_present sha256 parseAuth t hdr kv payload ht hkv hp] at h
        rcases hcv : getCookieValue consentedStateCookieName (hdr.getD "") with _ | hv
        · rw [hcv] at h
          exact absurd h (by simp)
        · rw [hcv] at h
          simp only at h
          by_cases hve : hv = ""
          · rw [if_pos hve] at h
            exact absurd h (by simp)
          · rw [if_neg hve] at h
            by_cases hm : bytesToHex (sha256 t) ≠ hv
            · rw [if_pos hm] at h
              exact absurd h (by simp)
            · rw [if_neg hm] at h
              rcases hpa : parseAuth payload with _ | r
              · rw [hpa] at h
                exact absurd h (by simp)
              · rw [hpa] at h
                exact (Prod.mk.injEq _ _ _ _ ▸ h).2.symm ▸ rfl

/-- With the record present and parseable and the header carrying exactly
the binding cookie with the correct digest, `validateOAuthState` succeeds
and deletes the record. -/
theorem validateOAuthState_good_cookie {α : Type} (sha256 : String → List Nat)
    (parseAuth : String → Option α) (t : String) (kv : KV) (payload : String) (r : α)
    (ht : t ≠ "") (hkv : kvGet kv (stateKey t) = some payload) (hp : payload ≠ "")
    (hparse : parseAuth payload = some r) (hhash : sha256 t ≠ []) :
    validateOAuthState sha256 parseAuth (some t)
        (some (consentedStateCookieName ++ "=" ++ bytesToHex (sha256 t))) kv =
      (.ok ⟨r, consentedStateCookieName ++
          "=; HttpOnly; Secure; Path=/; SameSite=Lax; Max-Age=0"⟩,
       kvDelete kv (stateKey t)) := by
  rw [validateOAuthState_present sha256 parseAuth t _ kv payload ht hkv hp]
  have hcv : getCookieValue consentedStateCookieName
      ((some (consentedStateCookieName ++ "=" ++ bytesToHex (sha256 t))).getD "") =
      some (bytesToHex (sha256 t)) :=
    getCookieValue_exact consentedStateCookieName (bytesToHex (sha256 t))
      (by decide) (bytesToHex_cookieSafe (sha256 t))
  rw [hcv]
  simp only
  rw [if_neg (bytesToHex_ne_empty (sha256 t) hhash), if_neg (by simp), hparse]

/-! ### Theorems: one-time state tokens (claims C1, C4, C9) -/

/-- C1: after `createOAuthState` stores a token, a validation carrying the
correct session-binding cookie succeeds and returns the stored request;
and after any successful validation of that token, every subsequent
`validateOAuthState` call for the same token (with any cookie header)
fails with the `invalid_request` / "Invalid or expired state" error,
because the success deleted the KV record before returning. -/
theorem c1_state_token_single_use {α : Type} (stringifyAuth : α → String)
    (parseAuth : String → Option α) (sha256 : String → List Nat) (req : α)
    (t : String) (kv0 : KV) (ht : t ≠ "") (hs : stringifyAuth req ≠ "")
    (hparse : parseAuth (stringifyAuth req) = some req) (hhash : sha256 t ≠ []) :
    (validateOAuthState sha256 parseAuth (some t)
        (some (consentedStateCookieName ++ "=" ++ bytesToHex (sha256 t)))
        (createOAuthState stringifyAuth t req kv0).2).1 =
      .ok ⟨req,
        consentedStateCookieName ++ "=; HttpOnly; Secure; Path=/; SameSite=Lax; Max-Age=0"⟩ ∧
    (∀ kv hdr res kv2,
      validateOAuthState sha256 parseAuth (some t) hdr kv = (.ok res, kv2) →
      ∀ hdr2, (validateOAuthState sha256 parseAuth (some t) hdr2 kv2).1 =
        .error ⟨"invalid_request", "Invalid or expired state", 400⟩) := by
  constructor
  · rw [show (createOAuthState stringifyAuth t req kv0).2 =
        kvPut kv0 (stateKey t) (stringifyAuth req) from rfl,
      validateOAuthState_good_cookie sha256 parseAuth t _ (stringifyAuth req) req ht
      (kvGet_put kv0 (stateKey t) (stringifyAuth req)) hs hparse hhash]
  · intro kv hdr res kv2 h hdr2
    obtain ⟨-, hdel⟩ := validateOAuthState_ok_kv sha256 parseAuth t hdr kv res kv2 h
    rw [hdel,
      validateOAuthState_absent sha256 parseAuth t hdr2 _ ht (kvGet_delete kv (stateKey t))]

/-- C1 witness: concrete one-shot run (trivial serializer/digest stand in
for the platform primitives). -/
theorem c1_state_token_single_use_witness :
    (validateOAuthState (fun _ => [171]) (fun s => if s = "req-json" then some 0 else none)
        (some "tok")
        (some (consentedStateCookieName ++ "=" ++ bytesToHex [171]))
        (createOAuthState (fun _ : Nat => "req-json") "tok" 0 []).2).1 =
      .ok ⟨0, consentedStateCookieName ++ "=; HttpOnly; Secure; Path=/; SameSite=Lax; Max-Age=0"⟩ :=
  (c1_state_token_single_use (fun _ : Nat => "req-json")
      (fun s => if s = "req-json" then some 0 else none) (fun _ => [171]) 0 "tok" []
      (by decide) (by decide) (by decide) (by decide)).1

/-- C4: when session binding fails inside `validateOAuthState` — the
binding cookie is absent (or empty), or its value differs from the digest
— the call returns an `invalid_request` error, the store is left
unchanged (no delete is issued on the failure path), the pending record is
still present, and a later validation of the same token with the correct
binding cookie still succeeds. -/
theorem c4_binding_failure_preserves_record {α : Type} (sha256 : String → List Nat)
    (parseAuth : String → Option α) (t : String) (hdr : Option String) (kv : KV)
    (payload : String) (r : α) (ht : t ≠ "")
    (hkv : kvGet kv (stateKey t) = some payload) (hp : payload ≠ "")
    (hparse : parseAuth payload = some r) (hhash : sha256 t ≠ [])
    (hfail : getCookieValue consentedStateCookieName (hdr.getD "") = none ∨
      getCookieValue consentedStateCookieName (hdr.getD "") = some "" ∨
      ∃ hv, getCookieValue consentedStateCookieName (hdr.getD "") = some hv ∧
        hv ≠ "" ∧ hv ≠ bytesToHex (sha256 t)) :
    (validateOAuthState sha256 parseAuth (some t) hdr kv).2 = kv ∧
    kvGet (validateOAuthState sha256 parseAuth (some t) hdr kv).2 (stateKey t) =
      some payload ∧
    (∃ e, (validateOAuthState sha256 parseAuth (some t) hdr kv).1 = .error e ∧
      e.code = "invalid_request" ∧ e.statusCode = 400) ∧
    (∃ res, (validateOAuthState sha256 parseAuth (some t)
        (some (consentedStateCookieName ++ "=" ++ bytesToHex (sha256 t))) kv).1 =
      .ok res ∧ res.oauthReqInfo = r) := by
  have hsnd : validateOAuthState sha256 parseAuth (some t) hdr kv =
      (((validateOAuthState sha256 parseAuth (some t) hdr kv).1), kv) ∧
      (∃ e, (validateOAuthState sha256 parseAuth (some t) hdr kv).1 = .error e ∧
        e.code = "invalid_request" ∧ e.statusCode = 400) := by
    rw [validateOAuthState_present sha256 parseAuth t hdr kv payload ht hkv hp]
    rcases hfail with hc | hc | ⟨hv, hc, hve, hvm⟩
    · rw [hc]
      exact ⟨rfl, _, rfl, rfl, rfl⟩
    · rw [hc]
      simp only [if_pos rfl]
      exact ⟨rfl, _, rfl, rfl, rfl⟩
    · rw [hc]
      simp only [if_neg hve]
      rw [if_pos (fun he => hvm he.symm)]
      exact ⟨rfl, _, rfl, rfl, rfl⟩
  refine ⟨?_, ?_, hsnd.2, ?_⟩
  · rw [hsnd.1]
  · rw [hsnd.1]
    exact hkv
  · rw [validateOAuthState_good_cookie sha256 parseAuth t kv payload r ht hkv hp hparse hhash]
    exact ⟨⟨r, _⟩, rfl, rfl⟩

/-- C4 witness: a concrete run with the binding cookie absent leaves the
record in place and a correctly-bound retry succeeds. -/
theorem c4_binding_failure_witness :
    (validateOAuthState (fun _ => [171])
        (fun s => if s = "req-json" then some 0 else none)
        (some "tok") none [(stateKey "tok", "req-json")]).2 = [(stateKey "tok", "req-json")] ∧
    ∃ res, (validateOAuthState (fun _ => [171])
        (fun s => if s = "req-json" then some 0 else none) (some "tok")
        (some (consentedStateCookieName ++ "=" ++ bytesToHex [171]))
        [(stateKey "tok", "req-json")]).1 = .ok res ∧ res.oauthReqInfo = 0 := by
  have h := c4_binding_failure_preserves_record (fun _ => [171])
    (fun s => if s = "req-json" then some 0 else none) "tok" none
    [(stateKey "tok", "req-json")] "req-json" 0 (by decide) (by decide) (by decide)
    (by decide) (by decide) (Or.inl (by decide))
  exact ⟨h.1, h.2.2.2⟩

/-- C9: a present state token whose stored payload fails to deserialize
makes `validateOAuthState` fail with the `server_error` / HTTP 500
"Invalid state data" error, distinct from the `invalid_request` / HTTP 400
errors raised for an absent state record or a missing binding cookie. -/
theorem c9_corrupt_state_server_error {α : Type} (sha256 : String → List Nat)
    (parseAuth : String → Option α) (t : String) (hdr : Option String) (kv : KV)
    (payload : String) (ht : t ≠ "") (hkv : kvGet kv (stateKey t) = some payload)
    (hp : payload ≠ "")
    (hcv : getCookieValue consentedStateCookieName (hdr.getD "") =
      some (bytesToHex (sha256 t)))
    (hhash : sha256 t ≠ []) (hparse : parseAuth payload = none) :
    (validateOAuthState sha256 parseAuth (some t) hdr kv).1 =
      .error ⟨"server_error", "Invalid state data", 500⟩ ∧
    (500 : Nat) ≠ 400 ∧
    (∀ kv', kvGet kv' (stateKey t) = none →
      (validateOAuthState sha256 parseAuth (some t) hdr kv').1 =
        .error ⟨"invalid_request", "Invalid or expired state", 400⟩) ∧
    (∀ hdr2 : Option String, getCookieValue consentedStateCookieName (hdr2.getD "") = none →
      (validateOAuthState sha256 parseAuth (some t) hdr2 kv).1 =
        .error ⟨"invalid_request",
          "Missing session binding cookie - authorization flow must be restarted", 400⟩) := by
  refine ⟨?_, by decide, ?_, ?_⟩
  · rw [validateOAuthState_present sha256 parseAuth t hdr kv payload ht hkv hp, hcv]
    simp only
    rw [if_neg (bytesToHex_ne_empty (sha256 t) hhash), if_neg (by simp), hparse]
  · intro kv' hkv'
    rw [validateOAuthState_absent sha256 parseAuth t hdr kv' ht hkv']
  · intro hdr2 hcv2
    rw [validateOAuthState_present sha256 parseAuth t hdr2 kv payload ht hkv hp, hcv2]

/-- C9 witness: concrete corrupt payload (the parser rejects it) yields
the 500 `server_error`. -/
theorem c9_corrupt_state_witness :
    (validateOAuthState (fun _ => [171]) (fun _ => (none : Option Nat))
        (some "tok") (some (consentedStateCookieName ++ "=" ++ bytesToHex [171]))
        [(stateKey "tok", "not json")]).1 =
      .error ⟨"server_error", "Invalid state data", 500⟩ :=
  (c9_corrupt_state_server_error (fun _ => [171]) (fun _ => (none : Option Nat))
      "tok" (some (consentedStateCookieName ++ "=" ++ bytesToHex [171]))
      [(stateKey "tok", "not json")] "not json" (by decide) (by decide) (by decide)
      (by decide) (by decide) rfl).1

/-! ### Theorems: session binding (claim C3) -/

/-- C3: with a non-empty stored payload that parses, session-binding
verification succeeds iff the extracted `__Host-CONSENTED_STATE` cookie
value equals the lowercase hex SHA-256 digest of the state token from the
callback URL; an absent (or empty-valued) binding cookie raises the
distinct missing-session-binding error, and any present differing value
(e.g. one flipped hex character) raises the mismatch error. -/
theorem c3_session_binding_iff {α : Type} (sha256 : String → List Nat)
    (parseAuth : String → Option α) (t : String) (hdr : Option String) (kv : KV)
    (payload : String) (r : α) (ht : t ≠ "")
    (hkv : kvGet kv (stateKey t) = some payload) (hp : payload ≠ "")
    (hparse : parseAuth payload = some r) (hhash : sha256 t ≠ []) :
    ((∃ res, (validateOAuthState sha256 parseAuth (some t) hdr kv).1 = .ok res) ↔
      getCookieValue consentedStateCookieName (hdr.getD "") =
        some (bytesToHex (sha256 t))) ∧
    ((getCookieValue consentedStateCookieName (hdr.getD "") = none ∨
      getCookieValue consentedStateCookieName (hdr.getD "") = some "") →
      (validateOAuthState sha256 parseAuth (some t) hdr kv).1 =
        .error ⟨"invalid_request",
          "Missing session binding cookie - authorization flow must be restarted", 400⟩) ∧
    (∀ hv, getCookieValue consentedStateCookieName (hdr.getD "") = some hv → hv ≠ "" →
      hv ≠ bytesToHex (sha256 t) →
      (validateOAuthState sha256 parseAuth (some t) hdr kv).1 =
        .error ⟨"invalid_request",
          "State token does not match session - possible CSRF attack detected", 400⟩) := by
  rw [validateOAuthState_present sha256 parseAuth t hdr kv payload ht hkv hp]
  refine ⟨⟨?_, ?_⟩, ?_, ?_⟩
  · intro ⟨res, hres⟩
    rcases hcv : getCookieValue consentedStateCookieName (hdr.getD "") with _ | hv
    · rw [hcv] at hres
      exact absurd hres (by simp)
    · rw [hcv] at hres
      simp only at hres
      by_cases hve : hv = ""
      · rw [if_pos hve] at hres
        exact absurd hres (by simp)
      · rw [if_neg hve] at hres
        by_cases hm : bytesToHex (sha256 t) ≠ hv
        · rw [if_pos hm] at hres
          exact absurd hres (by simp)
        · push_neg at hm
          exact congrArg some hm.symm
  · intro hcv
    rw [hcv]
    simp only
    rw [if_neg (bytesToHex_ne_empty (sha256 t) hhash), if_neg (by simp), hparse]
    exact ⟨⟨r, _⟩, rfl⟩
  · intro hcv
    rcases hcv with hcv | hcv
    · rw [hcv]
    · rw [hcv]
      simp only
      rw [if_pos trivial]
  · intro hv hcv hve hvm
    rw [hcv]
    simp only
    rw [if_neg hve, if_pos (fun he => hvm he.symm)]

/-- C3 witness: the equivalence applied at a concrete correct cookie. -/
theorem c3_session_binding_witness :
    ∃ res, (validateOAuthState (fun _ => [171])
        (fun s => if s = "req-json" then some 0 else none) (some "tok")
        (some (consentedStateCookieName ++ "=" ++ bytesToHex [171]))
        [(stateKey "tok", "req-json")]).1 = .ok res :=
  (c3_session_binding_iff (fun _ => [171])
      (fun s => if s = "req-json" then some 0 else none) "tok"
      (some (consentedStateCookieName ++ "=" ++ bytesToHex [171]))
      [(stateKey "tok", "req-json")] "req-json" 0 (by decide) (by decide) (by decide)
      (by decide) (by decide)).1.mpr (by decide)

/-! ### Supporting lemmas: hex decoding in `verifySignature` -/

set_option maxRecDepth 10000 in
theorem byteToHexPadded_pair :
    ∀ b : Nat, b < 256 →
      (byteToHexPadded b).data = [hexDigitChar (b / 16), hexDigitChar (b % 16)] := by
  decide

set_option maxRecDepth 10000 in
theorem jsParseIntHex_pair :
    ∀ b : Nat, b < 256 →
      jsToUint8 (jsParseIntHex [hexDigitChar (b / 16), hexDigitChar (b % 16)]) = b := by
  decide

theorem regexChunks_cons2 (a b : Char) (l : List Char)
    (ha : lineTerm a = false) (hb : lineTerm b = false) :
    regexChunks (a :: b :: l) = [a, b] :: regexChunks l := by
  simp [regexChunks, ha, hb]

/-- Decoding the hex of a byte list (as `verifySignature` does, chunking in
pairs and applying `parseInt(-, 16)`) recovers the bytes. -/
theorem hexDecode_bytesToHex (bs : List Nat) (h : ∀ b ∈ bs, b < 256) :
    (regexChunks (bytesToHex bs).data).map (fun ch => jsToUint8 (jsParseIntHex ch)) = bs := by
  induction bs with
  | nil => rfl
  | cons b bs ih =>
    have hb : b < 256 := h b (by simp)
    have hdata : (bytesToHex (b :: bs)).data =
        (byteToHexPadded b).data ++ (bytesToHex bs).data := rfl
    rw [hdata, byteToHexPadded_pair b hb]
    have hlt1 : lineTerm (hexDigitChar (b / 16)) = false :=
      (hexTable_props _ (hexDigitChar_mem _)).2.2.2
    have hlt2 : lineTerm (hexDigitChar (b % 16)) = false :=
      (hexTable_props _ (hexDigitChar_mem _)).2.2.2
    rw [show ([hexDigitChar (b / 16), hexDigitChar (b % 16)] ++ (bytesToHex bs).data) =
        hexDigitChar (b / 16) :: hexDigitChar (b % 16) :: (bytesToHex bs).data from rfl,
      regexChunks_cons2 _ _ _ hlt1 hlt2]
    simp only [List.map_cons]
    rw [jsParseIntHex_pair b hb, ih (fun x hx => h x (by simp [hx]))]

/-- Verification of a signature produced by `signData` with the same
secret succeeds (a real HMAC digest is a non-empty list of bytes). -/
theorem verifySignature_signed (hmacBytes : String → String → List Nat)
    (d secret : String) (hs : secret ≠ "") (hne : hmacBytes secret d ≠ [])
    (hlt : ∀ b ∈ hmacBytes secret d, b < 256) :
    verifySignature hmacBytes (bytesToHex (hmacBytes secret d)) d secret = .ok true := by
  unfold verifySignature
  rw [if_neg hs]
  have hdec := hexDecode_bytesToHex (hmacBytes secret d) hlt
  rcases hchunks : regexChunks (bytesToHex (hmacBytes secret d)).data with _ | ⟨c, cs⟩
  · rw [hchunks] at hdec
    exact absurd hdec.symm hne
  · rw [hchunks] at hdec
    simp [hdec]

/-- Verification fails (without throwing) whenever the decoded signature
bytes differ from the HMAC of the data. -/
theorem verifySignature_ne (hmacBytes : String → String → List Nat)
    (sigHex d secret : String) (hs : secret ≠ "")
    (hne : (regexChunks sigHex.data).map (fun ch => jsToUint8 (jsParseIntHex ch)) ≠
      hmacBytes secret d) :
    verifySignature hmacBytes sigHex d secret = .ok false := by
  unfold verifySignature
  rw [if_neg hs]
  rcases hchunks : regexChunks sigHex.data with _ | ⟨c, cs⟩
  · rfl
  · rw [hchunks] at hne
    simp only [List.map_cons] at hne
    simp [hne]

/-! ### Supporting lemmas: `btoa` / `atob` round trip -/

theorem sextetChar_mem (n : Nat) : sextetChar n ∈ base64Alphabet := by
  have h : sextetChar n = (base64Alphabet.get? n).getD 'A' := rfl
  rw [h]
  rcases hg : base64Alphabet.get? n with _ | c
  · exact (by decide : 'A' ∈ base64Alphabet)
  · simpa using List.get?_mem hg

theorem base64Alphabet_props :
    ∀ c ∈ base64Alphabet, isAsciiWs c = false ∧ ¬c = '=' ∧ ¬c = '.' ∧
      isJsWhitespace c = false ∧ ¬c = ';' := by decide

theorem padFor_add3 (r : Nat) : padFor (r + 3) = padFor r := by
  simp [padFor, Nat.add_mod_right]

theorem btoaChunks_len (bs : List Nat) : (btoaChunks bs).length % 4 = 0 := by
  induction bs using btoaChunks.induct <;> simp [btoaChunks, Nat.add_mod, *]

theorem btoaChunks_structure (bs : List Nat) :
    btoaChunks bs = (encSextets bs).map sextetChar ++ padFor bs.length := by
  induction bs using btoaChunks.induct with
  | case1 => rfl
  | case2 b0 => rfl
  | case3 b0 b1 => rfl
  | case4 b0 b1 b2 rest ih =>
    simp only [btoaChunks, encSextets, List.map_cons, List.cons_append, List.length_cons, ih]
    rw [show rest.length + 1 + 1 + 1 = rest.length + 3 from by omega, padFor_add3]

theorem padFor_mem (r : Nat) : ∀ c ∈ padFor r, c = '=' := by
  intro c hc
  unfold padFor at hc
  by_cases h1 : r % 3 = 1
  · rw [if_pos h1] at hc
    simp at hc
    exact hc
  · rw [if_neg h1] at hc
    by_cases h2 : r % 3 = 2
    · rw [if_pos h2] at hc
      simpa using hc
    · rw [if_neg h2] at hc
      simp at hc

theorem btoaChunks_mem (bs : List Nat) :
    ∀ c ∈ btoaChunks bs, c ∈ base64Alphabet ∨ c = '=' := by
  intro c hc
  rw [btoaChunks_structure] at hc
  rcases List.mem_append.mp hc with hc | hc
  · obtain ⟨n, -, rfl⟩ := List.mem_map.mp hc
    exact Or.inl (sextetChar_mem n)
  · exact Or.inr (padFor_mem bs.length c hc)

theorem encSextets_lt (bs : List Nat) (h : ∀ b ∈ bs, b < 256) :
    ∀ s ∈ encSextets bs, s < 64 := by
  induction bs using encSextets.induct with
  | case1 => intro s hs; simp [encSextets] at hs
  | case2 b0 =>
    intro s hs
    have hb0 : b0 < 256 := h b0 (by simp)
    simp [encSextets] at hs
    rcases hs with rfl | rfl <;> omega
  | case3 b0 b1 =>
    intro s hs
    have hb0 : b0 < 256 := h b0 (by simp)
    have hb1 : b1 < 256 := h b1 (by simp)
    simp [encSextets] at hs
    rcases hs with rfl | rfl | rfl <;> omega
  | case4 b0 b1 b2 rest ih =>
    intro s hs
    have hb0 : b0 < 256 := h b0 (by simp)
    have hb1 : b1 < 256 := h b1 (by simp)
    have hb2 : b2 < 256 := h b2 (by simp)
    simp [encSextets] at hs
    rcases hs with rfl | rfl | rfl | rfl | hmem
    · omega
    · omega
    · omega
    · omega
    · exact ih (fun b hb => h b (by simp [hb])) s hmem

theorem encSextets_len_mod (bs : List Nat) : (encSextets bs).length % 4 ≠ 1 := by
  induction bs using encSextets.induct with
  | case1 => simp [encSextets]
  | case2 b0 => simp [encSextets]
  | case3 b0 b1 => simp [encSextets]
  | case4 b0 b1 b2 rest ih =>
    simp only [encSextets, List.length_cons]
    rw [show (encSextets rest).length + 1 + 1 + 1 + 1 = (encSextets rest).length + 4 from by
      omega]
    simpa [Nat.add_mod_right] using ih

theorem encSextets_ne_nil (bs : List Nat) (h : bs ≠ []) : encSextets bs ≠ [] := by
  match bs with
  | [] => exact absurd rfl h
  | [b0] => simp [encSextets]
  | [b0, b1] => simp [encSextets]
  | b0 :: b1 :: b2 :: rest => simp [encSextets]

set_option maxRecDepth 10000 in
theorem findIdx_sextetChar :
    ∀ n : Nat, n < 64 → base64Alphabet.findIdx? (fun x => x == sextetChar n) = some n := by
  decide

theorem sextetsOf_map (sx : List Nat) (h : ∀ s ∈ sx, s < 64) :
    sextetsOf (sx.map sextetChar) = some sx := by
  induction sx with
  | nil => rfl
  | cons s sx ih =>
    simp only [List.map_cons, sextetsOf]
    rw [findIdx_sextetChar s (h s (by simp)), ih (fun x hx => h x (by simp [hx]))]

theorem decodeSextets_enc (bs : List Nat) (h : ∀ b ∈ bs, b < 256) :
    decodeSextets (encSextets bs) = bs := by
  induction bs using encSextets.induct with
  | case1 => rfl
  | case2 b0 =>
    have hb0 : b0 < 256 := h b0 (by simp)
    simp only [encSextets, decodeSextets]
    congr 1
    omega
  | case3 b0 b1 =>
    have hb0 : b0 < 256 := h b0 (by simp)
    have hb1 : b1 < 256 := h b1 (by simp)
    simp only [encSextets, decodeSextets]
    congr 1
    · omega
    · congr 1
      omega
  | case4 b0 b1 b2 rest ih =>
    have hb0 : b0 < 256 := h b0 (by simp)
    have hb1 : b1 < 256 := h b1 (by simp)
    have hb2 : b2 < 256 := h b2 (by simp)
    simp only [encSextets, decodeSextets]
    rw [ih (fun b hb => h b (by simp [hb]))]
    congr 1
    · omega
    · congr 1
      · omega
      · congr 1
        omega

theorem stripPad_no_pad (L : List Char) (h : ∀ c ∈ L, ¬c = '=') : stripPad L = L := by
  unfold stripPad
  by_cases hlen : L.length % 4 = 0
  · rw [if_pos hlen]
    rcases hr : L.reverse with _ | ⟨c, rest⟩
    · simp
    · have hc : ¬c = '=' := h c (by rw [← List.mem_reverse, hr]; simp)
      have h2 : ¬((c :: rest).take 2 = ['=', '=']) := by
        intro hcon
        rcases rest with _ | ⟨d, rest2⟩
        · exact (by simpa using hcon : False)
        · exact hc (List.cons.inj hcon).1
      have h1 : ¬((c :: rest).take 1 = ['=']) := by
        intro hcon
        exact hc (by simpa using hcon)
      rw [if_neg h2, if_neg h1]
  · rw [if_neg hlen]

theorem stripPad_two (L : List Char) (hlen : (L ++ ['=', '=']).length % 4 = 0) :
    stripPad (L ++ ['=', '=']) = L := by
  unfold stripPad
  rw [if_pos hlen]
  have hr : (L ++ ['=', '=']).reverse = '=' :: '=' :: L.reverse := by simp
  rw [hr, if_pos (by rfl)]
  simp

theorem stripPad_one (L : List Char) (hlen : (L ++ ['=']).length % 4 = 0)
    (h : ∀ c ∈ L, ¬c = '=') (hne : L ≠ []) : stripPad (L ++ ['=']) = L := by
  unfold stripPad
  rw [if_pos hlen]
  rcases hrev : L.reverse with _ | ⟨c, rest⟩
  · exact absurd (by simpa using congrArg List.reverse hrev) hne
  · have hc : ¬c = '=' := h c (by rw [← List.mem_reverse, hrev]; simp)
    have hr : (L ++ ['=']).reverse = '=' :: c :: rest := by simp [hrev]
    have h2 : ¬(('=' :: c :: rest).take 2 = ['=', '=']) := by
      intro hcon
      exact hc (List.cons.inj (List.cons.inj hcon).2).1
    rw [hr, if_neg h2, if_pos (by rfl)]
    simp [← hrev]

theorem stripPad_btoa (bs : List Nat) :
    stripPad (btoaChunks bs) = (encSextets bs).map sextetChar := by
  have hmemL : ∀ c ∈ (encSextets bs).map sextetChar, ¬c = '=' := by
    intro c hc
    obtain ⟨n, -, rfl⟩ := List.mem_map.mp hc
    exact (base64Alphabet_props _ (sextetChar_mem n)).2.1
  have hlen := btoaChunks_len bs
  rw [btoaChunks_structure] at hlen ⊢
  by_cases h1 : bs.length % 3 = 1
  · rw [show padFor bs.length = ['=', '='] from by simp [padFor, h1]] at hlen ⊢
    exact stripPad_two _ hlen
  · by_cases h2 : bs.length % 3 = 2
    · rw [show padFor bs.length = ['='] from by simp [padFor, h1, h2]] at hlen ⊢
      refine stripPad_one _ hlen hmemL ?_
      have hbs : bs ≠ [] := by
        intro hcon
        rw [hcon] at h2
        simp at h2
      simpa using encSextets_ne_nil bs hbs
    · rw [show padFor bs.length = [] from by simp [padFor, h1, h2]] at hlen ⊢
      rw [List.append_nil] at hlen ⊢
      exact stripPad_no_pad _ hmemL

/-- `btoa` succeeds on a Latin-1 string and `atob` decodes its output back
to the original string. -/
theorem jsAtob_jsBtoa (s : String) (h : ∀ c ∈ s.data, c.toNat < 256) :
    jsBtoa s = some ⟨btoaChunks (s.data.map Char.toNat)⟩ ∧
    jsAtob ⟨btoaChunks (s.data.map Char.toNat)⟩ = some s := by
  have hlt : ∀ b ∈ s.data.map Char.toNat, b < 256 := by
    intro b hb
    obtain ⟨c, hc, rfl⟩ := List.mem_map.mp hb
    exact h c hc
  constructor
  · unfold jsBtoa
    rw [if_pos]
    rw [List.all_eq_true]
    intro c hc
    exact decide_eq_true (by have := h c hc; omega)
  · unfold jsAtob
    have hfilter : (btoaChunks (s.data.map Char.toNat)).filter (fun c => !isAsciiWs c) =
        btoaChunks (s.data.map Char.toNat) := by
      rw [List.filter_eq_self]
      intro c hc
      rcases btoaChunks_mem _ c hc with hm | rfl
      · simp [(base64Alphabet_props c hm).1]
      · decide
    rw [show (String.mk (btoaChunks (s.data.map Char.toNat))).data =
        btoaChunks (s.data.map Char.toNat) from rfl, hfilter, stripPad_btoa]
    rw [if_neg (by simpa using encSextets_len_mod (s.data.map Char.toNat))]
    rw [sextetsOf_map _ (encSextets_lt _ hlt)]
    show some (String.mk ((decodeSextets (encSextets (s.data.map Char.toNat))).map
      Char.ofNat)) = some s
    rw [decodeSextets_enc _ hlt]
    have hback : (s.data.map Char.toNat).map Char.ofNat = s.data := by
      rw [List.map_map]
      rw [show (Char.ofNat ∘ Char.toNat) = id from funext Char.ofNat_toNat, List.map_id]
    rw [hback]

/-! ### Supporting lemmas: approval cache -/

theorem mem_dedupKeepFirst (x : String) (l : List String) :
    x ∈ dedupKeepFirst l ↔ x ∈ l := by
  induction l with
  | nil => simp [dedupKeepFirst]
  | cons a l ih =>
    simp only [dedupKeepFirst, List.mem_cons, List.mem_filter]
    constructor
    · rintro (rfl | ⟨hx, -⟩)
      · exact Or.inl rfl
      · exact Or.inr (ih.mp hx)
    · rintro (rfl | hx)
      · exact Or.inl rfl
      · by_cases hxa : x = a
        · exact Or.inl hxa
        · refine Or.inr ⟨ih.mpr hx, ?_⟩
          simp [hxa]

theorem dedupKeepFirst_append (l : List String) (a : String) :
    dedupKeepFirst (l ++ [a]) = dedupKeepFirst l ++ (if a ∈ l then [] else [a]) := by
  induction l with
  | nil => simp [dedupKeepFirst]
  | cons b l ih =>
    rw [show (b :: l) ++ [a] = b :: (l ++ [a]) from rfl,
      show dedupKeepFirst (b :: (l ++ [a])) =
        b :: (dedupKeepFirst (l ++ [a])).filter (fun x => !(x == b)) from rfl,
      ih, List.filter_append,
      show dedupKeepFirst (b :: l) = b :: (dedupKeepFirst l).filter (fun x => !(x == b)) from rfl]
    have htail : (if a ∈ l then ([] : List String) else [a]).filter (fun x => !(x == b)) =
        if a ∈ b :: l then ([] : List String) else [a] := by
      by_cases hal : a ∈ l
      · rw [if_pos hal, if_pos (List.mem_cons_of_mem b hal)]
        rfl
      · rw [if_neg hal]
        by_cases hab : a = b
        · rw [if_pos (by rw [hab]; exact List.mem_cons_self b l)]
          simp [List.filter_cons, hab]
        · rw [if_neg (by simp [hal, hab])]
          simp [List.filter_cons, hab]
    rw [htail]
    rfl

theorem splitOnChar_append_sep (sep : Char) (a b : List Char)
    (ha : ∀ c ∈ a, ¬c = sep) (hb : ∀ c ∈ b, ¬c = sep) :
    splitOnChar sep (a ++ sep :: b) = [a, b] := by
  induction a with
  | nil =>
    rw [List.nil_append,
      show splitOnChar sep (sep :: b) = [] :: splitOnChar sep b from by
        simp [splitOnChar],
      splitOnChar_of_not_mem sep b hb]
  | cons c a ih =>
    have hc : ¬c = sep := ha c (by simp)
    rw [List.cons_append,
      show splitOnChar sep (c :: (a ++ sep :: b)) =
        match splitOnChar sep (a ++ sep :: b) with
        | [] => [[c]]
        | h :: t => (c :: h) :: t from by simp [splitOnChar, hc],
      ih (fun x hx => ha x (by simp [hx]))]

theorem all_isStr_map (l : List String) : (l.map JsVal.str).all JsVal.isStr = true := by
  induction l with
  | nil => rfl
  | cons a l ih => simp [JsVal.isStr, ih]

theorem filterMap_asStr_map (l : List String) :
    (l.map JsVal.str).filterMap JsVal.asStr = l := by
  induction l with
  | nil => rfl
  | cons a l ih => simp [JsVal.asStr, List.filterMap_cons, ih]

theorem btoaChunks_cookieSafe (bs : List Nat) : cookieSafe (btoaChunks bs) := by
  intro c hc
  rcases btoaChunks_mem bs c hc with hm | rfl
  · exact ⟨(base64Alphabet_props c hm).2.2.2.1, (base64Alphabet_props c hm).2.2.2.2⟩
  · exact ⟨by decide, by decide⟩

theorem btoaChunks_no_dot (bs : List Nat) : ∀ c ∈ btoaChunks bs, ¬c = '.' := by
  intro c hc
  rcases btoaChunks_mem bs c hc with hm | rfl
  · exact (base64Alphabet_props c hm).2.2.1
  · decide

theorem bytesToHex_no_dot (bs : List Nat) : ∀ c ∈ (bytesToHex bs).data, ¬c = '.' :=
  fun c hc => (hexTable_props c (bytesToHex_mem bs c hc)).2.2.1

theorem getApproved_cookie_parts (hmacBytes : String → String → List Nat)
    (jparse : String → Option JsVal) (secret : String) (sigBytes : List Nat)
    (payload : String) (hlatin : ∀ c ∈ payload.data, c.toNat < 256) :
    getApprovedClientsFromCookie hmacBytes jparse
      (some (approvedClientsCookieName ++ "=" ++
        (bytesToHex sigBytes ++ "." ++ String.mk (btoaChunks (payload.data.map Char.toNat)))))
      secret =
    (match verifySignature hmacBytes (bytesToHex sigBytes) payload secret with
     | .error e => .error e
     | .ok false => .ok none
     | .ok true =>
       match jparse payload with
       | none => .ok none
       | some v =>
         match v with
         | .arr items =>
           if items.all JsVal.isStr then .ok (some (items.filterMap JsVal.asStr))
           else .ok none
         | _ => .ok none) := by
  have hb64 := (jsAtob_jsBtoa payload hlatin).2
  have hvdata : (bytesToHex sigBytes ++ "." ++
      String.mk (btoaChunks (payload.data.map Char.toNat))).data =
      (bytesToHex sigBytes).data ++ '.' :: btoaChunks (payload.data.map Char.toNat) := by
    rw [show (bytesToHex sigBytes ++ "." ++
        String.mk (btoaChunks (payload.data.map Char.toNat))).data =
      ((bytesToHex sigBytes).data ++ ['.']) ++ btoaChunks (payload.data.map Char.toNat)
      from rfl, List.append_assoc]
    rfl
  have hsafe : cookieSafe (bytesToHex sigBytes ++ "." ++
      String.mk (btoaChunks (payload.data.map Char.toNat))).data := by
    rw [hvdata]
    intro c hc
    rcases List.mem_append.mp hc with hc | hc
    · exact bytesToHex_cookieSafe sigBytes c hc
    · rcases List.mem_cons.mp hc with rfl | hc
      · exact ⟨by decide, by decide⟩
      · exact btoaChunks_cookieSafe _ c hc
  have hcv := getCookieValue_exact approvedClientsCookieName
    (bytesToHex sigBytes ++ "." ++ String.mk (btoaChunks (payload.data.map Char.toNat)))
    (by decide) hsafe
  have hsplit : splitOnChar '.' (bytesToHex sigBytes ++ "." ++
      String.mk (btoaChunks (payload.data.map Char.toNat))).data =
      [(bytesToHex sigBytes).data, btoaChunks (payload.data.map Char.toNat)] := by
    rw [hvdata]
    exact splitOnChar_append_sep '.' _ _ (bytesToHex_no_dot sigBytes) (btoaChunks_no_dot _)
  have hne : ¬(approvedClientsCookieName ++ "=" ++
      (bytesToHex sigBytes ++ "." ++ String.mk (btoaChunks (payload.data.map Char.toNat)))) = "" := by
    intro hcon
    have : (approvedClientsCookieName ++ "=" ++
        (bytesToHex sigBytes ++ "." ++
          String.mk (btoaChunks (payload.data.map Char.toNat)))).data = [] := by
      rw [hcon]
    rw [show (approvedClientsCookieName ++ "=" ++
        (bytesToHex sigBytes ++ "." ++ String.mk (btoaChunks (payload.data.map Char.toNat)))).data
      = (approvedClientsCookieName.data ++ ['=']) ++
        (bytesToHex sigBytes ++ "." ++ String.mk (btoaChunks (payload.data.map Char.toNat))).data
      from rfl] at this
    simp at this
  simp only [getApprovedClientsFromCookie]
  rw [if_neg hne, hcv]
  simp only [hsplit]
  rw [if_neg (by simp)]
  simp only [List.getD_cons_zero, List.getD_cons_succ]
  rw [hb64]

/-- A cookie produced with the same secret verifies and yields the list. -/
theorem getApproved_roundtrip (hmacBytes : String → String → List Nat)
    (jparse : String → Option JsVal) (secret : String) (lst : List String)
    (hs : secret ≠ "") (hbne : hmacBytes secret (jsonStringifyStrList lst) ≠ [])
    (hblt : ∀ b ∈ hmacBytes secret (jsonStringifyStrList lst), b < 256)
    (hlatin : ∀ c ∈ (jsonStringifyStrList lst).data, c.toNat < 256)
    (hjson : jparse (jsonStringifyStrList lst) = some (.arr (lst.map .str))) :
    getApprovedClientsFromCookie hmacBytes jparse
      (some (approvedClientsCookieName ++ "=" ++
        (bytesToHex (hmacBytes secret (jsonStringifyStrList lst)) ++ "." ++
          String.mk (btoaChunks ((jsonStringifyStrList lst).data.map Char.toNat)))))
      secret = .ok (some lst) := by
  rw [getApproved_cookie_parts hmacBytes jparse secret _ _ hlatin,
    verifySignature_signed hmacBytes _ secret hs hbne hblt, hjson]
  simp only [all_isStr_map, filterMap_asStr_map]
  rw [if_pos trivial]

/-- A cookie whose decoded signature bytes differ from the HMAC under the
given secret fails closed. -/
theorem getApproved_badsig (hmacBytes : String → String → List Nat)
    (jparse : String → Option JsVal) (secret : String) (sigBytes : List Nat)
    (payload : String) (hs : secret ≠ "") (hblt : ∀ b ∈ sigBytes, b < 256)
    (hlatin : ∀ c ∈ payload.data, c.toNat < 256)
    (hdiff : sigBytes ≠ hmacBytes secret payload) :
    getApprovedClientsFromCookie hmacBytes jparse
      (some (approvedClientsCookieName ++ "=" ++
        (bytesToHex sigBytes ++ "." ++
          String.mk (btoaChunks (payload.data.map Char.toNat)))))
      secret = .ok none := by
  rw [getApproved_cookie_parts hmacBytes jparse secret _ _ hlatin,
    verifySignature_ne hmacBytes (bytesToHex sigBytes) payload secret hs
      (by rw [hexDecode_bytesToHex sigBytes hblt]; exact hdiff)]

/-- Successful shape of `addApprovedClient`. -/
theorem addApprovedClient_ok (hmacBytes : String → String → List Nat)
    (jparse : String → Option JsVal) (hdr0 : Option String) (clientId secret : String)
    (existingOpt : Option (List String)) (hs : secret ≠ "")
    (hget : getApprovedClientsFromCookie hmacBytes jparse hdr0 secret = .ok existingOpt)
    (hlatin : ∀ c ∈ (jsonStringifyStrList
      (dedupKeepFirst (existingOpt.getD [] ++ [clientId]))).data, c.toNat < 256) :
    addApprovedClient hmacBytes jparse hdr0 clientId secret =
      .ok (approvedClientsCookieName ++ "=" ++
        bytesToHex (hmacBytes secret (jsonStringifyStrList
          (dedupKeepFirst (existingOpt.getD [] ++ [clientId])))) ++ "." ++
        String.mk (btoaChunks ((jsonStringifyStrList
          (dedupKeepFirst (existingOpt.getD [] ++ [clientId]))).data.map Char.toNat)) ++
        "; HttpOnly; Secure; Path=/; SameSite=Lax; Max-Age=2592000") := by
  simp only [addApprovedClient]
  rw [hget]
  simp only [signData]
  rw [if_neg hs, (jsAtob_jsBtoa _ hlatin).1]

/-! ### Theorems: approval cache (claims C5, C6, C7) -/

/-- C5 (amended): `isClientApproved` fails closed — returns `false`
without throwing — when the `Cookie` header is absent or empty, when the
`__Host-APPROVED_CLIENTS` cookie is not present, when the cookie value
does not split into exactly two `.`-separated parts, when the decoded
signature bytes do not equal the HMAC of the decoded payload (in
particular, for every client id, after tampering with the payload without
re-signing), and when the verified payload is not JSON for an array of
strings.  (An undecodable base64 payload, by contrast, throws — see the
counterexample.) -/
theorem c5_approval_fails_closed_amended (hmacBytes : String → String → List Nat)
    (jparse : String → Option JsVal) (clientId secret : String) :
    isClientApproved hmacBytes jparse none clientId secret = .ok false ∧
    isClientApproved hmacBytes jparse (some "") clientId secret = .ok false ∧
    (∀ hdr, hdr ≠ "" → getCookieValue approvedClientsCookieName hdr = none →
      isClientApproved hmacBytes jparse (some hdr) clientId secret = .ok false) ∧
    (∀ hdr cv, hdr ≠ "" → getCookieValue approvedClientsCookieName hdr = some cv →
      (splitOnChar '.' cv.data).length ≠ 2 →
      isClientApproved hmacBytes jparse (some hdr) clientId secret = .ok false) ∧
    (∀ sigBytes payload, secret ≠ "" → (∀ b ∈ sigBytes, b < 256) →
      (∀ c ∈ payload.data, c.toNat < 256) → sigBytes ≠ hmacBytes secret payload →
      isClientApproved hmacBytes jparse
        (some (approvedClientsCookieName ++ "=" ++
          (bytesToHex sigBytes ++ "." ++
            String.mk (btoaChunks (payload.data.map Char.toNat)))))
        clientId secret = .ok false) ∧
    (∀ payload, secret ≠ "" → (∀ b ∈ hmacBytes secret payload, b < 256) →
      (∀ c ∈ payload.data, c.toNat < 256) → hmacBytes secret payload ≠ [] →
      (jparse payload = none ∨ jparse payload = some .other ∨
        (∃ s, jparse payload = some (.str s)) ∨
        (∃ items, jparse payload = some (.arr items) ∧ items.all JsVal.isStr = false)) →
      isClientApproved hmacBytes jparse
        (some (approvedClientsCookieName ++ "=" ++
          (bytesToHex (hmacBytes secret payload) ++ "." ++
            String.mk (btoaChunks (payload.data.map Char.toNat)))))
        clientId secret = .ok false) := by
  refine ⟨rfl, rfl, ?_, ?_, ?_, ?_⟩
  · intro hdr hne hcv
    simp only [isClientApproved, getApprovedClientsFromCookie]
    rw [if_neg hne, hcv]
  · intro hdr cv hne hcv hlen
    simp only [isClientApproved, getApprovedClientsFromCookie]
    rw [if_neg hne, hcv]
    simp only
    rw [if_pos hlen]
  · intro sigBytes payload hs hblt hlatin hdiff
    simp only [isClientApproved]
    rw [getApproved_badsig hmacBytes jparse secret sigBytes payload hs hblt hlatin hdiff]
  · intro payload hs hblt hlatin hbne hj
    simp only [isClientApproved]
    rw [getApproved_cookie_parts hmacBytes jparse secret _ _ hlatin,
      verifySignature_signed hmacBytes _ secret hs hbne hblt]
    rcases hj with hj | hj | ⟨s, hj⟩ | ⟨items, hj, hall⟩
    · rw [hj]
    · rw [hj]
    · rw [hj]
    · rw [hj]
      simp only [hall]
      rw [if_neg (by simp)]

/-- C5 counterexample: a present cookie with two parts whose base64
payload is undecodable (`"%%%"`) makes `isClientApproved` throw — the
uncaught `atob` exception, modelled as `Except.error`, not `false` — so
the claim that every malformed cookie yields `false` without throwing is
false on the code. -/
theorem c5_approval_atob_throws_counterexample :
    isClientApproved (fun _ _ => [0]) (fun _ => none)
      (some "__Host-APPROVED_CLIENTS=ab.%%%") "client-A" "secret" =
      .error "InvalidCharacterError" ∧
    (∀ b : Bool, isClientApproved (fun _ _ => [0]) (fun _ => none)
      (some "__Host-APPROVED_CLIENTS=ab.%%%") "client-A" "secret" ≠ .ok b) := by
  refine ⟨by decide, ?_⟩
  intro b h
  rw [show isClientApproved (fun _ _ => [0]) (fun _ => none)
      (some "__Host-APPROVED_CLIENTS=ab.%%%") "client-A" "secret" =
      .error "InvalidCharacterError" from by decide] at h
  exact absurd h (by simp)

/-- C5 witness: a concrete tampered cookie (signature bytes `[2]`, HMAC
`[1]`) yields `false` via the amended theorem. -/
theorem c5_approval_fails_closed_witness :
    isClientApproved (fun _ _ => [1]) (fun _ => none)
      (some (approvedClientsCookieName ++ "=" ++
        (bytesToHex [2] ++ "." ++ String.mk (btoaChunks ("x".data.map Char.toNat)))))
      "client-A" "sec" = .ok false :=
  (c5_approval_fails_closed_amended (fun _ _ => [1]) (fun _ => none) "client-A"
    "sec").2.2.2.2.1 [2] "x" (by decide) (by decide) (by decide) (by decide)

/-- C6 (amended): for a non-empty secret, a client id whose updated JSON
payload is Latin-1, an incoming request whose approval cookie reads
without throwing, and modulo the standing facts about the HMAC primitive
(non-empty byte output below 256, `JSON.parse` inverting
`JSON.stringify`, and no collision between the two secrets on this
payload): `addApprovedClient` produces a signed cookie, and
`isClientApproved` on a request carrying that cookie returns `true` under
the same secret and `false` under the different secret. -/
theorem c6_approval_roundtrip_amended (hmacBytes : String → String → List Nat)
    (jparse : String → Option JsVal) (hdr0 : Option String)
    (clientId secret secret2 : String) (existingOpt : Option (List String))
    (hs : secret ≠ "") (hs2 : secret2 ≠ "")
    (hget : getApprovedClientsFromCookie hmacBytes jparse hdr0 secret = .ok existingOpt)
    (hlatin : ∀ c ∈ (jsonStringifyStrList
      (dedupKeepFirst (existingOpt.getD [] ++ [clientId]))).data, c.toNat < 256)
    (hbne : hmacBytes secret (jsonStringifyStrList
      (dedupKeepFirst (existingOpt.getD [] ++ [clientId]))) ≠ [])
    (hblt : ∀ b ∈ hmacBytes secret (jsonStringifyStrList
      (dedupKeepFirst (existingOpt.getD [] ++ [clientId]))), b < 256)
    (hjson : jparse (jsonStringifyStrList
        (dedupKeepFirst (existingOpt.getD [] ++ [clientId]))) =
      some (.arr ((dedupKeepFirst (existingOpt.getD [] ++ [clientId])).map .str)))
    (hdiff : hmacBytes secret2 (jsonStringifyStrList
        (dedupKeepFirst (existingOpt.getD [] ++ [clientId]))) ≠
      hmacBytes secret (jsonStringifyStrList
        (dedupKeepFirst (existingOpt.getD [] ++ [clientId])))) :
    addApprovedClient hmacBytes jparse hdr0 clientId secret =
      .ok (approvedClientsCookieName ++ "=" ++
        bytesToHex (hmacBytes secret (jsonStringifyStrList
          (dedupKeepFirst (existingOpt.getD [] ++ [clientId])))) ++ "." ++
        String.mk (btoaChunks ((jsonStringifyStrList
          (dedupKeepFirst (existingOpt.getD [] ++ [clientId]))).data.map Char.toNat)) ++
        "; HttpOnly; Secure; Path=/; SameSite=Lax; Max-Age=2592000") ∧
    isClientApproved hmacBytes jparse
      (some (approvedClientsCookieName ++ "=" ++
        (bytesToHex (hmacBytes secret (jsonStringifyStrList
          (dedupKeepFirst (existingOpt.getD [] ++ [clientId])))) ++ "." ++
          String.mk (btoaChunks ((jsonStringifyStrList
            (dedupKeepFirst (existingOpt.getD [] ++ [clientId]))).data.map Char.toNat)))))
      clientId secret = .ok true ∧
    isClientApproved hmacBytes jparse
      (some (approvedClientsCookieName ++ "=" ++
        (bytesToHex (hmacBytes secret (jsonStringifyStrList
          (dedupKeepFirst (existingOpt.getD [] ++ [clientId])))) ++ "." ++
          String.mk (btoaChunks ((jsonStringifyStrList
            (dedupKeepFirst (existingOpt.getD [] ++ [clientId]))).data.map Char.toNat)))))
      clientId secret2 = .ok false := by
  refine ⟨addApprovedClient_ok hmacBytes jparse hdr0 clientId secret existingOpt hs hget hlatin,
    ?_, ?_⟩
  · simp only [isClientApproved]
    rw [getApproved_roundtrip hmacBytes jparse secret _ hs hbne hblt hlatin hjson]
    have hmem : clientId ∈ dedupKeepFirst (existingOpt.getD [] ++ [clientId]) :=
      (mem_dedupKeepFirst clientId _).mpr (by simp)
    simp only [List.elem_iff.mpr hmem]
  · simp only [isClientApproved]
    rw [getApproved_badsig hmacBytes jparse secret2 _ _ hs2 hblt hlatin hdiff.symm]

/-- C6 counterexample: with the empty secret, `addApprovedClient` throws
(`importKey` requires a non-empty `cookieSecret`) instead of producing a
cookie, so the round trip claimed "for every client id and secret" cannot
even start. -/
theorem c6_approval_empty_secret_counterexample :
    addApprovedClient (fun _ _ => [0]) (fun _ => none) none "client-A" "" =
      .error "cookieSecret is required for signing cookies" ∧
    (∀ s : String, addApprovedClient (fun _ _ => [0]) (fun _ => none) none "client-A" "" ≠
      .ok s) := by
  refine ⟨by decide, ?_⟩
  intro s h
  rw [show addApprovedClient (fun _ _ => [0]) (fun _ => none) none "client-A" "" =
      .error "cookieSecret is required for signing cookies" from by decide] at h
  exact absurd h (by simp)

/-- C6 witness: concrete round trip; under secret `"s1"` the produced
cookie validates, under `"s2"` it does not. -/
theorem c6_approval_roundtrip_witness :
    isClientApproved (fun sec _ => if sec = "s1" then [1] else [2])
      (fun _ => some (.arr [.str "client-A"]))
      (some "__Host-APPROVED_CLIENTS=01.WyJjbGllbnQtQSJd") "client-A" "s1" = .ok true ∧
    isClientApproved (fun sec _ => if sec = "s1" then [1] else [2])
      (fun _ => some (.arr [.str "client-A"]))
      (some "__Host-APPROVED_CLIENTS=01.WyJjbGllbnQtQSJd") "client-A" "s2" = .ok false :=
  (c6_approval_roundtrip_amended (fun sec _ => if sec = "s1" then [1] else [2])
    (fun _ => some (.arr [.str "client-A"])) none "client-A" "s1" "s2" none
    (by decide) (by decide) rfl (by decide) (by decide) (by decide) rfl (by decide)).2

/-- C7 (amended): for a non-empty secret, a readable incoming approval
cookie, and a Latin-1 updated payload, `addApprovedClient` returns exactly
the `Set-Cookie` directive whose value is
`hex(HMAC(rawJSON)) ++ "." ++ base64(rawJSON)` — the signature over the
raw JSON text of the de-duplicated union of the verified existing ids with
the new id — carrying `HttpOnly; Secure; Path=/; SameSite=Lax;
Max-Age=2592000`; and adding an id already present leaves the serialized
set unchanged. -/
theorem c7_approval_cookie_format_amended (hmacBytes : String → String → List Nat)
    (jparse : String → Option JsVal) (hdr0 : Option String) (clientId secret : String)
    (existingOpt : Option (List String)) (hs : secret ≠ "")
    (hget : getApprovedClientsFromCookie hmacBytes jparse hdr0 secret = .ok existingOpt)
    (hlatin : ∀ c ∈ (jsonStringifyStrList
      (dedupKeepFirst (existingOpt.getD [] ++ [clientId]))).data, c.toNat < 256) :
    addApprovedClient hmacBytes jparse hdr0 clientId secret =
      .ok (approvedClientsCookieName ++ "=" ++
        bytesToHex (hmacBytes secret (jsonStringifyStrList
          (dedupKeepFirst (existingOpt.getD [] ++ [clientId])))) ++ "." ++
        String.mk (btoaChunks ((jsonStringifyStrList
          (dedupKeepFirst (existingOpt.getD [] ++ [clientId]))).data.map Char.toNat)) ++
        "; HttpOnly; Secure; Path=/; SameSite=Lax; Max-Age=2592000") ∧
    (clientId ∈ existingOpt.getD [] →
      dedupKeepFirst (existingOpt.getD [] ++ [clientId]) =
        dedupKeepFirst (existingOpt.getD [])) := by
  refine ⟨addApprovedClient_ok hmacBytes jparse hdr0 clientId secret existingOpt hs hget hlatin,
    fun hmem => ?_⟩
  rw [dedupKeepFirst_append, if_pos hmem, List.append_nil]

/-- C7 counterexample: with the empty secret, `addApprovedClient` throws
instead of producing a `Set-Cookie` directive, refuting "always
produces". -/
theorem c7_approval_empty_secret_counterexample :
    addApprovedClient (fun _ _ => [0]) (fun _ => none) none "client-B" "" =
      .error "cookieSecret is required for signing cookies" ∧
    (∀ s : String, addApprovedClient (fun _ _ => [0]) (fun _ => none) none "client-B" "" ≠
      .ok s) := by
  refine ⟨by decide, ?_⟩
  intro s h
  rw [show addApprovedClient (fun _ _ => [0]) (fun _ => none) none "client-B" "" =
      .error "cookieSecret is required for signing cookies" from by decide] at h
  exact absurd h (by simp)

/-- C7 witness: a concrete `Set-Cookie` directive produced for
`"client-B"` with no prior approvals. -/
theorem c7_approval_cookie_format_witness :
    addApprovedClient (fun _ _ => [1]) (fun _ => some (.arr [.str "client-B"])) none
      "client-B" "s3" =
      .ok (approvedClientsCookieName ++ "=" ++
        bytesToHex [1] ++ "." ++
        String.mk (btoaChunks ((jsonStringifyStrList ["client-B"]).data.map Char.toNat)) ++
        "; HttpOnly; Secure; Path=/; SameSite=Lax; Max-Age=2592000") :=
  (c7_approval_cookie_format_amended (fun _ _ => [1])
    (fun _ => some (.arr [.str "client-B"])) none "client-B" "s3"
    none (by decide) rfl (by decide)).1

end OAuthSec
